import Mathlib

/-!
Shallow embedding of the GitHub metrics collection and repository scoring
subsystem of the `sscrm-modules` repository, together with theorems checking
the natural-language specification against the code.

Conventions of the embedding:
* Python `int` is `ℤ`, Python `float` arithmetic on the exact decimal
  constants appearing in the scoring tables is carried out in `ℚ`.
* Python dictionaries are association lists (`dictInsert` replaces in place,
  as a `dict` keeps the position of an updated key).
* Fallible Python code (functions that `raise`) returns `Except String _`.
* `datetime.fromisoformat` (a library routine) is abstracted as a parameter
  `parseIso : String → Option ℚ` giving the parsed UTC timestamp in seconds,
  `none` for an unparseable string; `datetime.now()` becomes an explicit
  `now : ℚ` argument.
-/

/-- Python's `round` on an exact rational: round to the nearest integer,
ties to the even integer (banker's rounding). -/
def pyRound (q : ℚ) : ℤ :=
  let f : ℤ := ⌊q⌋
  let r : ℚ := q - f
  if r < 1/2 then f
  else if 1/2 < r then f + 1
  else if Even f then f else f + 1

/-- Association-list model of a Python `dict`: lookup of the first entry
with the given key. -/
def dictGet {α β : Type} [DecidableEq α] : List (α × β) → α → Option β
  | [], _ => none
  | p :: ps, k => if p.1 = k then some p.2 else dictGet ps k

/-- `d[k] = v`: replace the entry in place if the key is present (a Python
`dict` keeps the position of an updated key), otherwise append. -/
def dictInsert {α β : Type} [DecidableEq α] : List (α × β) → α → β → List (α × β)
  | [], k, v => [(k, v)]
  | p :: ps, k, v => if p.1 = k then (k, v) :: ps else p :: dictInsert ps k v

/-- `d.pop(k, None)`: drop the entries with the given key. -/
def dictPop {α β : Type} [DecidableEq α] (m : List (α × β)) (k : α) : List (α × β) :=
  m.filter (fun p => p.1 ≠ k)

/-! ## Computable Python string primitives

Lean's built-in `String.trim`, `String.startsWith`, `String.toLower` and
`String.splitOn` are implemented on UTF-8 byte positions and do not reduce
inside the kernel; the embedding uses these character-list versions instead. -/

/-- `s.strip()`: drop whitespace at both ends. -/
def pyStrip (s : String) : String :=
  String.mk (((s.data.dropWhile Char.isWhitespace).reverse.dropWhile
    Char.isWhitespace).reverse)

/-- Leading-pattern test on character lists (second argument is the pattern). -/
def strHasLead : List Char → List Char → Bool
  | _, [] => true
  | [], _ :: _ => false
  | c :: cs, d :: ds => decide (c = d) && strHasLead cs ds

/-- `s.startswith(pat)`. -/
def pyStartsWith (s pat : String) : Bool :=
  strHasLead s.data pat.data

/-- `s.lower()` (ASCII case folding, as in the URLs at hand). -/
def pyToLower (s : String) : String :=
  String.mk (s.data.map Char.toLower)

/-- Split a character list at every occurrence of `sep` (like
`str.split(sep)` for a one-character separator). -/
def splitChars (sep : Char) : List Char → List (List Char)
  | [] => [[]]
  | c :: cs =>
      match splitChars sep cs with
      | [] => [[c]]
      | h :: t => if c = sep then [] :: h :: t else (c :: h) :: t

/-! ## Scoring step functions (`repo_metrics/prevalence.py`)

Each function is a chain of `if`/`elif` clauses with no final `else`; the
implicit Python `return None` at the end is modelled by the `none` branch of
an `Option ℚ` result, which the totality theorems show is unreachable. -/

def stars_score (stars : ℤ) : Option ℚ :=
  if stars < 5 then some 0
  else if stars < 10 then some (1/10)
  else if stars < 25 then some (2/10)
  else if stars < 35 then some (3/10)
  else if stars < 45 then some (4/10)
  else if stars < 55 then some (5/10)
  else if stars < 65 then some (6/10)
  else if stars < 85 then some (7/10)
  else if stars < 95 then some (8/10)
  else if stars < 100 then some (9/10)
  else if stars ≥ 100 then some 1
  else none

def forks_score (forks : ℤ) : Option ℚ :=
  if forks < 2 then some 0
  else if forks < 3 then some (1/10)
  else if forks < 7 then some (2/10)
  else if forks < 10 then some (3/10)
  else if forks < 13 then some (4/10)
  else if forks < 17 then some (5/10)
  else if forks < 23 then some (6/10)
  else if forks < 30 then some (7/10)
  else if forks < 37 then some (8/10)
  else if forks ≥ 37 then some 1
  else none

def maturity_score (maturity : ℚ) : Option ℚ :=
  if maturity < 1/4 then some 0
  else if maturity < 1/2 then some (2/10)
  else if maturity < 1 then some (4/10)
  else if maturity < 2 then some (6/10)
  else if maturity < 3 then some (8/10)
  else if maturity < 4 then some (9/10)
  else if maturity ≥ 4 then some 1
  else none

def last_updated_score (last_updated : ℚ) : Option ℚ :=
  if last_updated ≥ 3 then some 0
  else if last_updated > 1 then some (2/10)
  else if last_updated > 1/2 then some (4/10)
  else if last_updated > 1/4 then some (6/10)
  else if last_updated > 1/10 then some (8/10)
  else if last_updated ≤ 1/10 then some 1
  else none

def releases_score (releases : ℤ) : Option ℚ :=
  if releases = 0 then some 0
  else if releases < 2 then some (1/10)
  else if releases < 3 then some (2/10)
  else if releases < 7 then some (3/10)
  else if releases < 13 then some (4/10)
  else if releases < 17 then some (5/10)
  else if releases < 20 then some (6/10)
  else if releases < 23 then some (7/10)
  else if releases < 27 then some (8/10)
  else if releases ≥ 27 then some 1
  else none

def closed_issues_score (closed_issues : ℤ) : Option ℚ :=
  if closed_issues = 0 then some 0
  else if closed_issues < 7 then some (1/10)
  else if closed_issues < 17 then some (2/10)
  else if closed_issues < 33 then some (3/10)
  else if closed_issues < 50 then some (4/10)
  else if closed_issues < 100 then some (6/10)
  else if closed_issues < 133 then some (8/10)
  else if closed_issues < 167 then some (9/10)
  else if closed_issues ≥ 167 then some 1
  else none

/-! Bucket tables transcribed from §4.4 of the spec, written as two-sided
buckets ("inclusive lower bound, exclusive upper") to compare against the
source's `if`/`elif` chains. -/

def starsTable (n : ℤ) : ℚ :=
  if 100 ≤ n then 1
  else if 95 ≤ n then 9/10
  else if 85 ≤ n then 8/10
  else if 65 ≤ n then 7/10
  else if 55 ≤ n then 6/10
  else if 45 ≤ n then 5/10
  else if 35 ≤ n then 4/10
  else if 25 ≤ n then 3/10
  else if 10 ≤ n then 2/10
  else if 5 ≤ n then 1/10
  else 0

def forksTable (n : ℤ) : ℚ :=
  if 37 ≤ n then 1
  else if 30 ≤ n then 8/10
  else if 23 ≤ n then 7/10
  else if 17 ≤ n then 6/10
  else if 13 ≤ n then 5/10
  else if 10 ≤ n then 4/10
  else if 7 ≤ n then 3/10
  else if 3 ≤ n then 2/10
  else if 2 ≤ n then 1/10
  else 0

def maturityTable (x : ℚ) : ℚ :=
  if 4 ≤ x then 1
  else if 3 ≤ x then 9/10
  else if 2 ≤ x then 8/10
  else if 1 ≤ x then 6/10
  else if 1/2 ≤ x then 4/10
  else if 1/4 ≤ x then 2/10
  else 0

def lastUpdatedTable (x : ℚ) : ℚ :=
  if x ≤ 1/10 then 1
  else if x ≤ 1/4 then 8/10
  else if x ≤ 1/2 then 6/10
  else if x ≤ 1 then 4/10
  else if x < 3 then 2/10
  else 0

def releasesTable (n : ℤ) : ℚ :=
  if 27 ≤ n then 1
  else if 23 ≤ n then 8/10
  else if 20 ≤ n then 7/10
  else if 17 ≤ n then 6/10
  else if 13 ≤ n then 5/10
  else if 7 ≤ n then 4/10
  else if 3 ≤ n then 3/10
  else if 2 ≤ n then 2/10
  else if n ≠ 0 then 1/10
  else 0

def closedIssuesTable (n : ℤ) : ℚ :=
  if 167 ≤ n then 1
  else if 133 ≤ n then 9/10
  else if 100 ≤ n then 8/10
  else if 50 ≤ n then 6/10
  else if 33 ≤ n then 4/10
  else if 17 ≤ n then 3/10
  else if 7 ≤ n then 2/10
  else if n ≠ 0 then 1/10
  else 0

/-! ## Classification and date arithmetic (`repo_metrics/analysis.py`) -/

/-- `is_score_passing`: Python's `if unclass_score:` truthiness test on an
`int` is `unclass_score ≠ 0`. -/
def is_score_passing (unclass_score : ℤ) : String :=
  if unclass_score ≠ 0 then
    if unclass_score ≥ 70 then "True"
    else if unclass_score ≥ 40 then "Undetermined"
    else "False"
  else "False"

/-- `years_since_date_calculator`, with the library routine
`datetime.fromisoformat` (wrapped by the inner `_parse_iso`) abstracted as
`parseIso`, returning the parsed UTC timestamp in seconds, and `now` explicit. -/
def years_since_date_calculator (parseIso : String → Option ℚ)
    (repo_date : String) (now : ℚ) : ℚ :=
  match parseIso repo_date with
  | none => 0
  | some t =>
      let seconds := now - t
      if seconds < 0 then 0 else seconds / (3652425/10000 * 86400)

/-! ## TokenState / TokenPool (`models/token_state.py`, `repo_metrics/github/token_pool.py`)

The `requests.Session` held by each `TokenState` is an I/O handle with no
bearing on selection; it is omitted, and `pick_for_graphql` returns the chosen
token together with the updated pool (Python returns `(tok, session)` and
mutates `_rr_index` in place).  `time.time()` becomes the explicit `now`. -/

structure TokenState where
  cooldown_until : ℚ := 0
  gql_remaining : Option ℤ := none
  gql_reset_unix : ℚ := 0
  gql_last_cost : Option ℤ := none
  gql_last_remaining : Option ℤ := none
  gql_last_reset_at : Option String := none
  gql_requests : ℕ := 0

structure TokenPool where
  tokens : List String
  states : String → TokenState
  rrIndex : ℕ

/-- Python's `max(xs, key=f)`: the first element attaining the maximal key
(`max` only replaces the running best on a strictly greater key).  `none` on
an empty list, where Python raises `ValueError`. -/
def pythonMaxBy {α κ : Type} [LinearOrder κ] (key : α → κ) : List α → Option α
  | [] => none
  | x :: xs => some (xs.foldl (fun b y => if key b < key y then y else b) x)

/-- Python's `min(xs, key=f)`: the first element attaining the minimal key. -/
def pythonMinBy {α κ : Type} [LinearOrder κ] (key : α → κ) : List α → Option α
  | [] => none
  | x :: xs => some (xs.foldl (fun b y => if key y < key b then y else b) x)

/-- The candidate filter of `pick_for_graphql`: cooldown passed AND the
recorded GraphQL reset instant passed. -/
def gqlCandidates (p : TokenPool) (now : ℚ) : List String :=
  p.tokens.filter
    (fun t => decide ((p.states t).cooldown_until ≤ now ∧ (p.states t).gql_reset_unix ≤ now))

/-- The selection key of the `max(...)` call: unknown remaining counts as −1. -/
def gqlBudgetKey (p : TokenPool) (t : String) : ℤ :=
  ((p.states t).gql_remaining).getD (-1)

/-- `TokenPool.pick_for_graphql`.  `none` only when the pool holds no tokens
at all (then Python's `min` would raise; the constructor guarantees at least
one, possibly anonymous, token). -/
def pick_for_graphql (p : TokenPool) (now : ℚ) : Option (String × TokenPool) :=
  let candidates := gqlCandidates p now
  if candidates.isEmpty then
    match pythonMinBy (fun t => (p.states t).cooldown_until) p.tokens with
    | none => none
    | some tok => some (tok, p)
  else if candidates.all (fun t => ((p.states t).gql_remaining).isNone) then
    match candidates.get? (p.rrIndex % candidates.length) with
    | none => none
    | some tok => some (tok, { p with rrIndex := (p.rrIndex + 1) % p.tokens.length })
  else
    match pythonMaxBy (gqlBudgetKey p) candidates with
    | none => none
    | some tok => some (tok, p)

/-- Concrete two-token pool: token `"a"` is not cooling down and has the
higher known budget, but its `gql_reset_unix` lies in the future. -/
def cexPool : TokenPool :=
  { tokens := ["a", "b"]
    states := fun t =>
      if t = "a" then { cooldown_until := 0, gql_remaining := some 10, gql_reset_unix := 100 }
      else { cooldown_until := 0, gql_remaining := some 5, gql_reset_unix := 0 }
    rrIndex := 0 }

/-! ## Data model (`models/repo.py`) -/

structure LatLon where
  lat : ℚ
  lon : ℚ
deriving DecidableEq

structure InternalAddress where
  query : String
  formatted_address : String
  street : String := ""
  house_number : String := ""
  suburb : String := ""
  postcode : String := ""
  state : String := ""
  statecode : String := ""
  statedistrict : String := ""
  county : String := ""
  country : String := ""
  country_code : String := ""
  city : String := ""
  location : Option LatLon := none
deriving DecidableEq

structure ContributorInfo where
  login : String
  github_id : ℤ
  contributions : ℤ
  html_url : String
  name : Option String := none
  company : Option String := none
  email : Option String := none
  site_admin : Bool := false
  location : Option String := none
  internal_address : Option InternalAddress := none
deriving DecidableEq

structure RepositoryScores where
  stars_score : ℤ
  forks_score : ℤ
  prevalence_score : ℤ
  maturity_score : ℤ
  last_updated_score : ℤ
  trusted_org_bonus : ℤ
  unclass_score : ℤ
  passes_sia : String
deriving DecidableEq

structure RepositoryInfo where
  repo_url : String
  owner : String
  name : String
  stars : ℤ
  forks : ℤ
  releases_count : ℤ
  tags_count : ℤ
  closed_issues_count : ℤ
  created_at : String
  updated_at : String
  retrieval_uuid : String := ""
  retrieved_at : String := ""
  contributors : List ContributorInfo := []
  repo_scores : Option RepositoryScores := none
deriving DecidableEq

/-- `RepositoryStore`: primary index by `retrieval_uuid`, secondary index
normalized URL → uuid. -/
structure RepositoryStore where
  by_uuid : List (String × RepositoryInfo) := []
  by_url : List (String × String) := []
deriving DecidableEq

/-- `url.strip().rstrip("/")`. -/
def RepositoryStore._normalize_url (url : String) : String :=
  let s := pyStrip url
  String.mk ((s.data.reverse.dropWhile (· = '/')).reverse)

def RepositoryStore.add (s : RepositoryStore) (repo : RepositoryInfo) : RepositoryStore :=
  { by_uuid := dictInsert s.by_uuid repo.retrieval_uuid repo
    by_url := dictInsert s.by_url (RepositoryStore._normalize_url repo.repo_url)
        repo.retrieval_uuid }

def RepositoryStore.get_all (s : RepositoryStore) : List RepositoryInfo :=
  s.by_uuid.map Prod.snd

def RepositoryStore.get_by_uuid (s : RepositoryStore) (retrieval_uuid : String) :
    Option RepositoryInfo :=
  dictGet s.by_uuid retrieval_uuid

def RepositoryStore.get_by_url (s : RepositoryStore) (repo_url : String) :
    Option RepositoryInfo :=
  match dictGet s.by_url (RepositoryStore._normalize_url repo_url) with
  | none => none
  | some rid => if rid ≠ "" then dictGet s.by_uuid rid else none

/-! ## Repository collector (`repo_metrics/github/github_metrics.py`)

`collect_one_repo` performs network I/O; its per-URL outcome (together with
the rest of the `try` body) is abstracted as `outcome : String → Except
String RepositoryInfo`.  The worker pool hands results to the loop in
completion order; the input list order of `outcome` applications stands for
that completion order.  `loggers/github_metrics_logger` is not part of the
sources; modelled from the spec: the aggregate error raised carries the
logged message itself. -/

/-- The URL pre-filter: `[u.strip() for u in repo_urls if u and u.strip() and
not u.strip().startswith("#")]`. -/
def filter_repo_urls (repo_urls : List String) : List String :=
  repo_urls.filterMap (fun u =>
    let s := pyStrip u
    if s ≠ "" ∧ ¬ pyStartsWith s "#" then some s else none)

/-- One iteration of the `as_completed` loop: a success is appended to
`results` and added to the shared store; a failure is recorded as
`f"{url}: {e}"`. -/
def collectStep (outcome : String → Except String RepositoryInfo)
    (acc : List RepositoryInfo × List String × RepositoryStore) (url : String) :
    List RepositoryInfo × List String × RepositoryStore :=
  match outcome url with
  | .ok r => (acc.1 ++ [r], acc.2.1, acc.2.2.add r)
  | .error e => (acc.1, acc.2.1 ++ [url ++ ": " ++ e], acc.2.2)

/-- The aggregate failure message: up to 25 entries, then a remainder count. -/
def aggregate_error_message (errors : List String) : String :=
  "Some repos failed:\n" ++ String.intercalate "\n" (errors.take 25) ++
    (if errors.length > 25 then "\n... and " ++ toString (errors.length - 25) ++ " more"
     else "")

/-- `collect_many_repos`: runs every task, then either returns all results or
raises the single aggregate error; the populated store survives either way
(Python keeps it in `Config.github_repository_store`). -/
def collect_many_repos (outcome : String → Except String RepositoryInfo)
    (repo_urls : List String) : Except String (List RepositoryInfo) × RepositoryStore :=
  let urls := filter_repo_urls repo_urls
  let res := urls.foldl (collectStep outcome) ([], [], ⟨[], []⟩)
  (if res.2.1.isEmpty then .ok res.1 else .error (aggregate_error_message res.2.1),
   res.2.2)

/-- The successes of a URL list, in completion order. -/
def successList (outcome : String → Except String RepositoryInfo)
    (urls : List String) : List RepositoryInfo :=
  urls.filterMap (fun u => (outcome u).toOption)

/-- The recorded failure strings of a URL list, in completion order. -/
def errorList (outcome : String → Except String RepositoryInfo)
    (urls : List String) : List String :=
  urls.filterMap (fun u =>
    match outcome u with
    | .error e => some (u ++ ": " ++ e)
    | .ok _ => none)

/-- Repositories and outcome function of the concrete three-URL scenario
(the third URL fails). -/
def wRepoA : RepositoryInfo :=
  { repo_url := "https://github.com/x/a", owner := "x", name := "a", stars := 1,
    forks := 0, releases_count := 0, tags_count := 0, closed_issues_count := 0,
    created_at := "", updated_at := "", retrieval_uuid := "uuid-a" }

def wRepoB : RepositoryInfo :=
  { repo_url := "https://github.com/x/b", owner := "x", name := "b", stars := 2,
    forks := 0, releases_count := 0, tags_count := 0, closed_issues_count := 0,
    created_at := "", updated_at := "", retrieval_uuid := "uuid-b" }

def wOutcome : String → Except String RepositoryInfo := fun u =>
  if u = "a" then .ok wRepoA
  else if u = "b" then .ok wRepoB
  else .error "boom"

/-! ## Scoring engine (`repo_metrics/analysis.py`, `repo_metrics/prevalence.py`) -/

/-- Modelled from the spec: the `constants` module imported by `analysis.py`
and `prevalence.py` is not among the sources; §4.4 of the spec says only that
each sub-score fraction is "multiplied by a fixed integer weight", so the
weights stay abstract. -/
structure Constants where
  STARS_WEIGHT : ℤ
  FORKS_WEIGHT : ℤ
  MATURITY_WEIGHT : ℤ
  LAST_UPDATED_WEIGHT : ℤ
  PREVALENCE_WEIGHT : ℤ
  BONUS_ORG_WEIGHT : ℤ

/-- The characters after the first `"://"`, if any. -/
def afterSchemeMarker : List Char → Option (List Char)
  | [] => none
  | c :: cs =>
      if strHasLead (c :: cs) [':', '/', '/'] then some (cs.drop 2)
      else afterSchemeMarker cs

/-- `urlparse(url).path` for the `scheme://netloc/path` URLs at hand: the
part of the remainder starting at the first `'/'` (the whole string when
there is no scheme marker, as `urlparse` then reads it all as path). -/
def urlparse_path (url : String) : String :=
  match afterSchemeMarker url.data with
  | none => url
  | some rest => String.mk (rest.dropWhile (· ≠ '/'))

/-- `trusted_org_bonus`: first path segment of the repo URL, compared
case-insensitively against the trusted organizations (the keys of
`input/trusted_orgs.json`, passed here as a list); a match yields
`BONUS_ORG_WEIGHT`.  `load_json_file` is I/O and is abstracted into the
`trusted_orgs` argument. -/
def trusted_org_bonus (c : Constants) (trusted_orgs : List String)
    (github_url : String) : ℤ :=
  let path := (urlparse_path github_url).data
  let component_org :=
    String.mk ((splitChars '/'
      ((path.dropWhile (· = '/')).reverse.dropWhile (· = '/') |>.reverse)).headD [])
  if trusted_orgs.any (fun org => pyToLower component_org = pyToLower org) then
    c.BONUS_ORG_WEIGHT
  else 0

def tags_or_releases_prevalence_calculator (c : Constants)
    (repo_data : RepositoryInfo) : ℤ :=
  if repo_data.releases_count > 0 then
    pyRound ((c.PREVALENCE_WEIGHT : ℚ) * (releases_score repo_data.releases_count).getD 0)
  else if repo_data.tags_count > 0 then
    pyRound ((c.PREVALENCE_WEIGHT : ℚ) * (releases_score repo_data.tags_count).getD 0)
  else 0

def get_prevalence_score (closed_issues_score tags_or_releases_prevalence_score : ℤ) : ℤ :=
  if tags_or_releases_prevalence_score > closed_issues_score then
    tags_or_releases_prevalence_score
  else if closed_issues_score > tags_or_releases_prevalence_score then
    closed_issues_score
  else tags_or_releases_prevalence_score

/-- The loop body of `calculate_repo_scores` for one repository.  The
`(stars_score ..).getD 0` defaults are unreachable (totality theorems above);
Python would raise a `TypeError` on the implicit `None`. -/
def calculate_repo_scores_one (c : Constants) (trusted_orgs : List String)
    (parseIso : String → Option ℚ) (now : ℚ) (repo_data : RepositoryInfo) :
    RepositoryScores :=
  let stars_score_final :=
    pyRound ((c.STARS_WEIGHT : ℚ) * (stars_score repo_data.stars).getD 0)
  let forks_score_final :=
    pyRound ((c.FORKS_WEIGHT : ℚ) * (forks_score repo_data.forks).getD 0)
  let created_date_years := years_since_date_calculator parseIso repo_data.created_at now
  let maturity_score_final :=
    pyRound ((c.MATURITY_WEIGHT : ℚ) * (maturity_score created_date_years).getD 0)
  let last_updated_date_years := years_since_date_calculator parseIso repo_data.updated_at now
  let last_updated_score_final :=
    pyRound ((c.LAST_UPDATED_WEIGHT : ℚ) * (last_updated_score last_updated_date_years).getD 0)
  let closed_issues_score_final :=
    pyRound ((c.PREVALENCE_WEIGHT : ℚ) * (closed_issues_score repo_data.closed_issues_count).getD 0)
  let tags_or_releases_prevalence_score := tags_or_releases_prevalence_calculator c repo_data
  let prevalence_score :=
    get_prevalence_score closed_issues_score_final tags_or_releases_prevalence_score
  let trusted_org_score := trusted_org_bonus c trusted_orgs repo_data.repo_url
  let unclass_score := stars_score_final + forks_score_final + maturity_score_final +
    last_updated_score_final + prevalence_score + trusted_org_score
  { stars_score := stars_score_final
    forks_score := forks_score_final
    maturity_score := maturity_score_final
    last_updated_score := last_updated_score_final
    prevalence_score := prevalence_score
    trusted_org_bonus := trusted_org_score
    unclass_score := unclass_score
    passes_sia := is_score_passing unclass_score }

/-- `calculate_repo_scores`: for every repository in the store, compute its
scores and assign `repo_data.repo_scores`. -/
def calculate_repo_scores (c : Constants) (trusted_orgs : List String)
    (parseIso : String → Option ℚ) (now : ℚ) (store : RepositoryStore) :
    RepositoryStore :=
  { store with
    by_uuid := store.by_uuid.map (fun p =>
      (p.1, { p.2 with
        repo_scores := some (calculate_repo_scores_one c trusted_orgs parseIso now p.2) })) }

def demoConsts : Constants := ⟨18, 18, 18, 18, 18, 10⟩

def c8Consts : Constants := ⟨10, 10, 10, 10, 10, 10⟩

/-- Parse function fixing the one date string of the counterexample at
timestamp 0 (everything else unparseable). -/
def c8Parse : String → Option ℚ := fun s =>
  if s = "2020-01-01T00:00:00Z" then some 0 else none

def c8Repo : RepositoryInfo :=
  { repo_url := "https://github.com/x/r", owner := "x", name := "r", stars := 0,
    forks := 0, releases_count := 0, tags_count := 0, closed_issues_count := 0,
    created_at := "2020-01-01T00:00:00Z", updated_at := "2020-01-01T00:00:00Z",
    retrieval_uuid := "u" }

/-! ## ContributorStore (`models/repo.py`)

The re-entrant lock makes `add` atomic; the embedding models the store under
that lock as a sequential structure.  Python's `int(x)` on the already-`int`
`github_id` fields is the identity and is dropped. -/

def _norm_login (login : String) : String :=
  pyToLower (pyStrip login)

structure ContributorStore where
  by_login : List (String × ContributorInfo) := []
  by_id : List (ℤ × ContributorInfo) := []
deriving DecidableEq

/-- First half of `add`'s upsert: if an entry exists for this login with a
different numeric id, drop that id's mapping. -/
def addIdx1 (s : ContributorStore) (c : ContributorInfo) : List (ℤ × ContributorInfo) :=
  match dictGet s.by_login (_norm_login c.login) with
  | some existing =>
      if existing.github_id ≠ c.github_id then dictPop s.by_id existing.github_id
      else s.by_id
  | none => s.by_id

/-- Second half of `add`'s upsert: if an entry exists for this id (after the
first pop) with a different login, drop that login's mapping. -/
def addIdx2 (s : ContributorStore) (c : ContributorInfo) : List (String × ContributorInfo) :=
  match dictGet (addIdx1 s c) c.github_id with
  | some existing_by_id =>
      if _norm_login existing_by_id.login ≠ _norm_login c.login then
        dictPop s.by_login (_norm_login existing_by_id.login)
      else s.by_login
  | none => s.by_login

/-- The state change of a successful `ContributorStore.add`. -/
def ContributorStore.addCore (s : ContributorStore) (c : ContributorInfo) : ContributorStore :=
  { by_login := dictInsert (addIdx2 s c) (_norm_login c.login) c
    by_id := dictInsert (addIdx1 s c) c.github_id c }

/-- `ContributorStore.add`: raises `ValueError` on an empty login (before
touching either index), otherwise upserts keeping the two indices in sync. -/
def ContributorStore.add (s : ContributorStore) (contributor : ContributorInfo) :
    Except String ContributorStore :=
  if contributor.login = "" then
    .error "ContributorSummary.login must be non-empty"
  else
    .ok (s.addCore contributor)

def ContributorStore.get_by_login (s : ContributorStore) (login : String) :
    Option ContributorInfo :=
  if login = "" then none else dictGet s.by_login (_norm_login login)

def ContributorStore.get_by_githubid (s : ContributorStore) (github_id : ℤ) :
    Option ContributorInfo :=
  dictGet s.by_id github_id

/-- `all()`: the login index is canonical. -/
def ContributorStore.all (s : ContributorStore) : List ContributorInfo :=
  s.by_login.map Prod.snd

/-- A Python `add` call sequence: an exception leaves the store unchanged. -/
def ContributorStore.addSeq (s : ContributorStore) (cs : List ContributorInfo) :
    ContributorStore :=
  cs.foldl (fun s c =>
    match s.add c with
    | .ok s' => s'
    | .error _ => s) s

/-- Mutual consistency of the two indices: every entry's key agrees with the
stored object's own identity, and the twin index holds the same object. -/
def ContributorStore.Consistent (s : ContributorStore) : Prop :=
  (∀ k cc, dictGet s.by_login k = some cc →
    _norm_login cc.login = k ∧ dictGet s.by_id cc.github_id = some cc) ∧
  (∀ g cc, dictGet s.by_id g = some cc →
    cc.github_id = g ∧ dictGet s.by_login (_norm_login cc.login) = some cc)

def cBob1 : ContributorInfo := { login := "Bob", github_id := 1, contributions := 3, html_url := "u1" }

def cBob2 : ContributorInfo := { login := "Bob", github_id := 2, contributions := 4, html_url := "u2" }

def cAnn : ContributorInfo := { login := "Ann", github_id := 1, contributions := 5, html_url := "u3" }

def cCid : ContributorInfo := { login := "Cid", github_id := 1, contributions := 6, html_url := "u4" }

def cNoLogin : ContributorInfo := { login := "", github_id := 9, contributions := 0, html_url := "u9" }

/-! ## URL parsing (`repo_metrics/github/github_metrics.py`)

`parse_github_repo_url` is two anchored regular expressions; the embedding
replays their (lazy/greedy) matching behaviour on character lists:

* `git@github\.com:([^/]+)/([^/]+?)(?:\.git)?$` — case-sensitive; the lazy
  repo group means one trailing `".git"` is stripped exactly when a non-empty
  name remains;
* `^https?://github\.com/([^/]+)/([^/]+?)(?:\.git)?/?$` with `IGNORECASE`
  (ASCII case folding here), after the `^http://github\.com/` →
  `https://github.com/` rewrite. -/

/-- Strip one trailing `".git"` when a non-empty remainder is left (the lazy
`([^/]+?)(?:\.git)?$` behaviour), case-sensitively. -/
def stripGitSuffix (s : List Char) : List Char :=
  if s.length > 4 ∧ s.drop (s.length - 4) = ['.', 'g', 'i', 't'] then
    s.take (s.length - 4)
  else s

/-- As `stripGitSuffix`, but case-insensitive (`IGNORECASE` applies to the
`\.git` literal of the second regex). -/
def stripGitSuffixCI (s : List Char) : List Char :=
  if s.length > 4 ∧ (s.drop (s.length - 4)).map Char.toLower = ['.', 'g', 'i', 't'] then
    s.take (s.length - 4)
  else s

/-- The SSH regex: `git@github.com:` followed by exactly two non-empty
slash-free segments, the second with an optional `.git` suffix. -/
def sshMatch (u : List Char) : Option (String × String) :=
  if strHasLead u "git@github.com:".data then
    match splitChars '/' (u.drop 15) with
    | [owner, repo0] =>
        if owner ≠ [] ∧ repo0 ≠ [] then
          some (String.mk owner, String.mk (stripGitSuffix repo0))
        else none
    | _ => none
  else none

/-- `re.sub(r"^http://github\.com/", "https://github.com/", u, IGNORECASE)`. -/
def httpUpgrade (u : List Char) : List Char :=
  if (u.take 18).map Char.toLower = "http://github.com/".data then
    "https://github.com/".data ++ u.drop 18
  else u

/-- The scheme-and-host part of the HTTPS regex: case-insensitively match
`https://github.com/` or `http://github.com/` at the start and return what
follows. -/
def restAfterHost (u : List Char) : Option (List Char) :=
  if (u.take 19).map Char.toLower = "https://github.com/".data then some (u.drop 19)
  else if (u.take 18).map Char.toLower = "http://github.com/".data then some (u.drop 18)
  else none

/-- The HTTPS regex: case-insensitive scheme and host, two non-empty
slash-free segments, optional `.git`, optional single trailing slash. -/
def httpsMatch (u : List Char) : Option (String × String) :=
  match restAfterHost u with
  | none => none
  | some rest =>
      match splitChars '/' rest with
      | [owner, repoPart] =>
          if owner ≠ [] ∧ repoPart ≠ [] then
            some (String.mk owner, String.mk (stripGitSuffixCI repoPart))
          else none
      | [owner, repoPart, []] =>
          if owner ≠ [] ∧ repoPart ≠ [] then
            some (String.mk owner, String.mk (stripGitSuffixCI repoPart))
          else none
      | _ => none

/-- `parse_github_repo_url`.  The `ValueError` carries the logged message;
modelled from the spec ("raises a parse error naming the offending URL"),
since `loggers/github_metrics_logger` is not among the sources. -/
def parse_github_repo_url (url : String) : Except String (String × String × String) :=
  let u := (pyStrip url).data
  match sshMatch u with
  | some (owner, repo) =>
      .ok ("https://github.com/" ++ owner ++ "/" ++ repo, owner, repo)
  | none =>
      match httpsMatch (httpUpgrade u) with
      | some (owner, repo) =>
          .ok ("https://github.com/" ++ owner ++ "/" ++ repo, owner, repo)
      | none => .error ("Not a recognized GitHub repo URL: " ++ url)

/-- Join character-list segments with a separator: the left inverse of
`splitChars`, used to state what a split result says about the input. -/
def joinWithSep (sep : Char) : List (List Char) → List Char
  | [] => []
  | [p] => p
  | p :: q :: rest => p ++ sep :: joinWithSep sep (q :: rest)

/-- Declarative shape of the inputs the SSH regex
`git@github\.com:([^/]+)/([^/]+?)(?:\.git)?$` accepts: the literal head
followed by two non-empty slash-free segments (the optional `.git` is part
of the second segment). -/
def SshShape (u : List Char) : Prop :=
  ∃ owner repo0 : List Char,
    owner ≠ [] ∧ repo0 ≠ [] ∧ '/' ∉ owner ∧ '/' ∉ repo0 ∧
    u = "git@github.com:".data ++ owner ++ '/' :: repo0

/-- Declarative shape of the inputs the HTTPS regex accepts (after the
`http://` upgrade, which does not change acceptance): a case-insensitive
`https://github.com/` or `http://github.com/` head, two non-empty slash-free
segments, and at most one trailing slash. -/
def HttpShape (u : List Char) : Prop :=
  ∃ schemeHost owner repo0 trail : List Char,
    (schemeHost.map Char.toLower = "https://github.com/".data ∨
     schemeHost.map Char.toLower = "http://github.com/".data) ∧
    owner ≠ [] ∧ repo0 ≠ [] ∧ '/' ∉ owner ∧ '/' ∉ repo0 ∧
    (trail = [] ∨ trail = ['/']) ∧
    u = schemeHost ++ owner ++ '/' :: repo0 ++ trail

/-- The whole accepted language of `parse_github_repo_url`, stated on the
whitespace-stripped input. -/
def RecognizedGithubUrl (url : String) : Prop :=
  SshShape (pyStrip url).data ∨ HttpShape (pyStrip url).data

theorem dictGet_insert {α β : Type} [DecidableEq α] (m : List (α × β)) (k k' : α) (v : β) :
    dictGet (dictInsert m k v) k' = if k' = k then some v else dictGet m k' := by
  induction m with
  | nil =>
      by_cases h : k' = k
      · subst h; simp [dictGet, dictInsert]
      · simp [dictGet, dictInsert, h, Ne.symm h]
  | cons p ps ih =>
      by_cases hp : p.1 = k
      · subst hp
        by_cases h : k' = p.1
        · subst h; simp [dictGet, dictInsert]
        · simp [dictGet, dictInsert, h, Ne.symm h]
      · by_cases h : p.1 = k'
        · have hk : ¬ k' = k := fun hh => hp (h.trans hh)
          simp [dictGet, dictInsert, hp, h, hk]
        · simp [dictGet, dictInsert, hp, h, ih]

theorem dictGet_pop {α β : Type} [DecidableEq α] (m : List (α × β)) (k k' : α) :
    dictGet (dictPop m k) k' = if k' = k then none else dictGet m k' := by
  induction m with
  | nil => by_cases h : k' = k <;> simp [dictGet, dictPop, h]
  | cons p ps ih =>
      by_cases hp : p.1 = k
      · by_cases h : k' = k
        · subst h
          simpa [dictPop, dictGet, hp, List.filter_cons] using ih
        · have hpk : ¬ p.1 = k' := fun hh => h (hh.symm.trans hp)
          simp [dictPop, dictGet, hp, h, Ne.symm h, List.filter_cons] at ih ⊢
          simpa [h] using ih
      · by_cases h : p.1 = k'
        · have hk : ¬ k' = k := fun hh => hp (h.trans hh)
          simp [dictPop, dictGet, hp, h, hk, List.filter_cons]
        · simp [dictPop, dictGet, hp, h, List.filter_cons] at ih ⊢
          exact ih

theorem stars_score_eq_table (n : ℤ) : stars_score n = some (starsTable n) := by
  unfold stars_score starsTable
  by_cases h0 : n < 5
  · rw [if_pos h0, if_neg (show ¬(100 ≤ n) by omega), if_neg (show ¬(95 ≤ n) by omega), if_neg (show ¬(85 ≤ n) by omega), if_neg (show ¬(65 ≤ n) by omega), if_neg (show ¬(55 ≤ n) by omega), if_neg (show ¬(45 ≤ n) by omega), if_neg (show ¬(35 ≤ n) by omega), if_neg (show ¬(25 ≤ n) by omega), if_neg (show ¬(10 ≤ n) by omega), if_neg (show ¬(5 ≤ n) by omega)]
  by_cases h1 : n < 10
  · rw [if_neg h0, if_pos h1, if_neg (show ¬(100 ≤ n) by omega), if_neg (show ¬(95 ≤ n) by omega), if_neg (show ¬(85 ≤ n) by omega), if_neg (show ¬(65 ≤ n) by omega), if_neg (show ¬(55 ≤ n) by omega), if_neg (show ¬(45 ≤ n) by omega), if_neg (show ¬(35 ≤ n) by omega), if_neg (show ¬(25 ≤ n) by omega), if_neg (show ¬(10 ≤ n) by omega), if_pos (show 5 ≤ n by omega)]
  by_cases h2 : n < 25
  · rw [if_neg h0, if_neg h1, if_pos h2, if_neg (show ¬(100 ≤ n) by omega), if_neg (show ¬(95 ≤ n) by omega), if_neg (show ¬(85 ≤ n) by omega), if_neg (show ¬(65 ≤ n) by omega), if_neg (show ¬(55 ≤ n) by omega), if_neg (show ¬(45 ≤ n) by omega), if_neg (show ¬(35 ≤ n) by omega), if_neg (show ¬(25 ≤ n) by omega), if_pos (show 10 ≤ n by omega)]
  by_cases h3 : n < 35
  · rw [if_neg h0, if_neg h1, if_neg h2, if_pos h3, if_neg (show ¬(100 ≤ n) by omega), if_neg (show ¬(95 ≤ n) by omega), if_neg (show ¬(85 ≤ n) by omega), if_neg (show ¬(65 ≤ n) by omega), if_neg (show ¬(55 ≤ n) by omega), if_neg (show ¬(45 ≤ n) by omega), if_neg (show ¬(35 ≤ n) by omega), if_pos (show 25 ≤ n by omega)]
  by_cases h4 : n < 45
  · rw [if_neg h0, if_neg h1, if_neg h2, if_neg h3, if_pos h4, if_neg (show ¬(100 ≤ n) by omega), if_neg (show ¬(95 ≤ n) by omega), if_neg (show ¬(85 ≤ n) by omega), if_neg (show ¬(65 ≤ n) by omega), if_neg (show ¬(55 ≤ n) by omega), if_neg (show ¬(45 ≤ n) by omega), if_pos (show 35 ≤ n by omega)]
  by_cases h5 : n < 55
  · rw [if_neg h0, if_neg h1, if_neg h2, if_neg h3, if_neg h4, if_pos h5, if_neg (show ¬(100 ≤ n) by omega), if_neg (show ¬(95 ≤ n) by omega), if_neg (show ¬(85 ≤ n) by omega), if_neg (show ¬(65 ≤ n) by omega), if_neg (show ¬(55 ≤ n) by omega), if_pos (show 45 ≤ n by omega)]
  by_cases h6 : n < 65
  · rw [if_neg h0, if_neg h1, if_neg h2, if_neg h3, if_neg h4, if_neg h5, if_pos h6, if_neg (show ¬(100 ≤ n) by omega), if_neg (show ¬(95 ≤ n) by omega), if_neg (show ¬(85 ≤ n) by omega), if_neg (show ¬(65 ≤ n) by omega), if_pos (show 55 ≤ n by omega)]
  by_cases h7 : n < 85
  · rw [if_neg h0, if_neg h1, if_neg h2, if_neg h3, if_neg h4, if_neg h5, if_neg h6, if_pos h7, if_neg (show ¬(100 ≤ n) by omega), if_neg (show ¬(95 ≤ n) by omega), if_neg (show ¬(85 ≤ n) by omega), if_pos (show 65 ≤ n by omega)]
  by_cases h8 : n < 95
  · rw [if_neg h0, if_neg h1, if_neg h2, if_neg h3, if_neg h4, if_neg h5, if_neg h6, if_neg h7, if_pos h8, if_neg (show ¬(100 ≤ n) by omega), if_neg (show ¬(95 ≤ n) by omega), if_pos (show 85 ≤ n by omega)]
  by_cases h9 : n < 100
  · rw [if_neg h0, if_neg h1, if_neg h2, if_neg h3, if_neg h4, if_neg h5, if_neg h6, if_neg h7, if_neg h8, if_pos h9, if_neg (show ¬(100 ≤ n) by omega), if_pos (show 95 ≤ n by omega)]
  rw [if_neg h0, if_neg h1, if_neg h2, if_neg h3, if_neg h4, if_neg h5, if_neg h6, if_neg h7, if_neg h8, if_neg h9, if_pos (show n ≥ 100 by omega), if_pos (show 100 ≤ n by omega)]

theorem forks_score_eq_table (n : ℤ) : forks_score n = some (forksTable n) := by
  unfold forks_score forksTable
  by_cases h0 : n < 2
  · rw [if_pos h0, if_neg (show ¬(37 ≤ n) by omega), if_neg (show ¬(30 ≤ n) by omega), if_neg (show ¬(23 ≤ n) by omega), if_neg (show ¬(17 ≤ n) by omega), if_neg (show ¬(13 ≤ n) by omega), if_neg (show ¬(10 ≤ n) by omega), if_neg (show ¬(7 ≤ n) by omega), if_neg (show ¬(3 ≤ n) by omega), if_neg (show ¬(2 ≤ n) by omega)]
  by_cases h1 : n < 3
  · rw [if_neg h0, if_pos h1, if_neg (show ¬(37 ≤ n) by omega), if_neg (show ¬(30 ≤ n) by omega), if_neg (show ¬(23 ≤ n) by omega), if_neg (show ¬(17 ≤ n) by omega), if_neg (show ¬(13 ≤ n) by omega), if_neg (show ¬(10 ≤ n) by omega), if_neg (show ¬(7 ≤ n) by omega), if_neg (show ¬(3 ≤ n) by omega), if_pos (show 2 ≤ n by omega)]
  by_cases h2 : n < 7
  · rw [if_neg h0, if_neg h1, if_pos h2, if_neg (show ¬(37 ≤ n) by omega), if_neg (show ¬(30 ≤ n) by omega), if_neg (show ¬(23 ≤ n) by omega), if_neg (show ¬(17 ≤ n) by omega), if_neg (show ¬(13 ≤ n) by omega), if_neg (show ¬(10 ≤ n) by omega), if_neg (show ¬(7 ≤ n) by omega), if_pos (show 3 ≤ n by omega)]
  by_cases h3 : n < 10
  · rw [if_neg h0, if_neg h1, if_neg h2, if_pos h3, if_neg (show ¬(37 ≤ n) by omega), if_neg (show ¬(30 ≤ n) by omega), if_neg (show ¬(23 ≤ n) by omega), if_neg (show ¬(17 ≤ n) by omega), if_neg (show ¬(13 ≤ n) by omega), if_neg (show ¬(10 ≤ n) by omega), if_pos (show 7 ≤ n by omega)]
  by_cases h4 : n < 13
  · rw [if_neg h0, if_neg h1, if_neg h2, if_neg h3, if_pos h4, if_neg (show ¬(37 ≤ n) by omega), if_neg (show ¬(30 ≤ n) by omega), if_neg (show ¬(23 ≤ n) by omega), if_neg (show ¬(17 ≤ n) by omega), if_neg (show ¬(13 ≤ n) by omega), if_pos (show 10 ≤ n by omega)]
  by_cases h5 : n < 17
  · rw [if_neg h0, if_neg h1, if_neg h2, if_neg h3, if_neg h4, if_pos h5, if_neg (show ¬(37 ≤ n) by omega), if_neg (show ¬(30 ≤ n) by omega), if_neg (show ¬(23 ≤ n) by omega), if_neg (show ¬(17 ≤ n) by omega), if_pos (show 13 ≤ n by omega)]
  by_cases h6 : n < 23
  · rw [if_neg h0, if_neg h1, if_neg h2, if_neg h3, if_neg h4, if_neg h5, if_pos h6, if_neg (show ¬(37 ≤ n) by omega), if_neg (show ¬(30 ≤ n) by omega), if_neg (show ¬(23 ≤ n) by omega), if_pos (show 17 ≤ n by omega)]
  by_cases h7 : n < 30
  · rw [if_neg h0, if_neg h1, if_neg h2, if_neg h3, if_neg h4, if_neg h5, if_neg h6, if_pos h7, if_neg (show ¬(37 ≤ n) by omega), if_neg (show ¬(30 ≤ n) by omega), if_pos (show 23 ≤ n by omega)]
  by_cases h8 : n < 37
  · rw [if_neg h0, if_neg h1, if_neg h2, if_neg h3, if_neg h4, if_neg h5, if_neg h6, if_neg h7, if_pos h8, if_neg (show ¬(37 ≤ n) by omega), if_pos (show 30 ≤ n by omega)]
  rw [if_neg h0, if_neg h1, if_neg h2, if_neg h3, if_neg h4, if_neg h5, if_neg h6, if_neg h7, if_neg h8, if_pos (show n ≥ 37 by omega), if_pos (show 37 ≤ n by omega)]

theorem maturity_score_eq_table (x : ℚ) : maturity_score x = some (maturityTable x) := by
  unfold maturity_score maturityTable
  by_cases h0 : x < 1/4
  · rw [if_pos h0, if_neg (show ¬(4 ≤ x) by intro hc; linarith), if_neg (show ¬(3 ≤ x) by intro hc; linarith), if_neg (show ¬(2 ≤ x) by intro hc; linarith), if_neg (show ¬(1 ≤ x) by intro hc; linarith), if_neg (show ¬(1/2 ≤ x) by intro hc; linarith), if_neg (show ¬(1/4 ≤ x) by intro hc; linarith)]
  by_cases h1 : x < 1/2
  · rw [if_neg h0, if_pos h1, if_neg (show ¬(4 ≤ x) by intro hc; linarith), if_neg (show ¬(3 ≤ x) by intro hc; linarith), if_neg (show ¬(2 ≤ x) by intro hc; linarith), if_neg (show ¬(1 ≤ x) by intro hc; linarith), if_neg (show ¬(1/2 ≤ x) by intro hc; linarith), if_pos (show 1/4 ≤ x by linarith)]
  by_cases h2 : x < 1
  · rw [if_neg h0, if_neg h1, if_pos h2, if_neg (show ¬(4 ≤ x) by intro hc; linarith), if_neg (show ¬(3 ≤ x) by intro hc; linarith), if_neg (show ¬(2 ≤ x) by intro hc; linarith), if_neg (show ¬(1 ≤ x) by intro hc; linarith), if_pos (show 1/2 ≤ x by linarith)]
  by_cases h3 : x < 2
  · rw [if_neg h0, if_neg h1, if_neg h2, if_pos h3, if_neg (show ¬(4 ≤ x) by intro hc; linarith), if_neg (show ¬(3 ≤ x) by intro hc; linarith), if_neg (show ¬(2 ≤ x) by intro hc; linarith), if_pos (show 1 ≤ x by linarith)]
  by_cases h4 : x < 3
  · rw [if_neg h0, if_neg h1, if_neg h2, if_neg h3, if_pos h4, if_neg (show ¬(4 ≤ x) by intro hc; linarith), if_neg (show ¬(3 ≤ x) by intro hc; linarith), if_pos (show 2 ≤ x by linarith)]
  by_cases h5 : x < 4
  · rw [if_neg h0, if_neg h1, if_neg h2, if_neg h3, if_neg h4, if_pos h5, if_neg (show ¬(4 ≤ x) by intro hc; linarith), if_pos (show 3 ≤ x by linarith)]
  rw [if_neg h0, if_neg h1, if_neg h2, if_neg h3, if_neg h4, if_neg h5, if_pos (show x ≥ 4 by linarith), if_pos (show 4 ≤ x by linarith)]

theorem last_updated_score_eq_table (x : ℚ) : last_updated_score x = some (lastUpdatedTable x) := by
  unfold last_updated_score lastUpdatedTable
  by_cases h0 : x ≥ 3
  · rw [if_pos h0, if_neg (show ¬(x ≤ 1/10) by intro hc; linarith), if_neg (show ¬(x ≤ 1/4) by intro hc; linarith), if_neg (show ¬(x ≤ 1/2) by intro hc; linarith), if_neg (show ¬(x ≤ 1) by intro hc; linarith), if_neg (show ¬(x < 3) by intro hc; linarith)]
  by_cases h1 : x > 1
  · rw [if_neg h0, if_pos h1, if_neg (show ¬(x ≤ 1/10) by intro hc; linarith), if_neg (show ¬(x ≤ 1/4) by intro hc; linarith), if_neg (show ¬(x ≤ 1/2) by intro hc; linarith), if_neg (show ¬(x ≤ 1) by intro hc; linarith), if_pos (show x < 3 by linarith)]
  by_cases h2 : x > 1/2
  · rw [if_neg h0, if_neg h1, if_pos h2, if_neg (show ¬(x ≤ 1/10) by intro hc; linarith), if_neg (show ¬(x ≤ 1/4) by intro hc; linarith), if_neg (show ¬(x ≤ 1/2) by intro hc; linarith), if_pos (show x ≤ 1 by linarith)]
  by_cases h3 : x > 1/4
  · rw [if_neg h0, if_neg h1, if_neg h2, if_pos h3, if_neg (show ¬(x ≤ 1/10) by intro hc; linarith), if_neg (show ¬(x ≤ 1/4) by intro hc; linarith), if_pos (show x ≤ 1/2 by linarith)]
  by_cases h4 : x > 1/10
  · rw [if_neg h0, if_neg h1, if_neg h2, if_neg h3, if_pos h4, if_neg (show ¬(x ≤ 1/10) by intro hc; linarith), if_pos (show x ≤ 1/4 by linarith)]
  rw [if_neg h0, if_neg h1, if_neg h2, if_neg h3, if_neg h4, if_pos (show x ≤ 1/10 by linarith), if_pos (show x ≤ 1/10 by linarith)]

theorem releases_score_eq_table (n : ℤ) : releases_score n = some (releasesTable n) := by
  unfold releases_score releasesTable
  by_cases h0 : n = 0
  · rw [if_pos h0, if_neg (show ¬(27 ≤ n) by omega), if_neg (show ¬(23 ≤ n) by omega), if_neg (show ¬(20 ≤ n) by omega), if_neg (show ¬(17 ≤ n) by omega), if_neg (show ¬(13 ≤ n) by omega), if_neg (show ¬(7 ≤ n) by omega), if_neg (show ¬(3 ≤ n) by omega), if_neg (show ¬(2 ≤ n) by omega), if_neg (show ¬(n ≠ 0) by omega)]
  by_cases h1 : n < 2
  · rw [if_neg h0, if_pos h1, if_neg (show ¬(27 ≤ n) by omega), if_neg (show ¬(23 ≤ n) by omega), if_neg (show ¬(20 ≤ n) by omega), if_neg (show ¬(17 ≤ n) by omega), if_neg (show ¬(13 ≤ n) by omega), if_neg (show ¬(7 ≤ n) by omega), if_neg (show ¬(3 ≤ n) by omega), if_neg (show ¬(2 ≤ n) by omega), if_pos (show n ≠ 0 by omega)]
  by_cases h2 : n < 3
  · rw [if_neg h0, if_neg h1, if_pos h2, if_neg (show ¬(27 ≤ n) by omega), if_neg (show ¬(23 ≤ n) by omega), if_neg (show ¬(20 ≤ n) by omega), if_neg (show ¬(17 ≤ n) by omega), if_neg (show ¬(13 ≤ n) by omega), if_neg (show ¬(7 ≤ n) by omega), if_neg (show ¬(3 ≤ n) by omega), if_pos (show 2 ≤ n by omega)]
  by_cases h3 : n < 7
  · rw [if_neg h0, if_neg h1, if_neg h2, if_pos h3, if_neg (show ¬(27 ≤ n) by omega), if_neg (show ¬(23 ≤ n) by omega), if_neg (show ¬(20 ≤ n) by omega), if_neg (show ¬(17 ≤ n) by omega), if_neg (show ¬(13 ≤ n) by omega), if_neg (show ¬(7 ≤ n) by omega), if_pos (show 3 ≤ n by omega)]
  by_cases h4 : n < 13
  · rw [if_neg h0, if_neg h1, if_neg h2, if_neg h3, if_pos h4, if_neg (show ¬(27 ≤ n) by omega), if_neg (show ¬(23 ≤ n) by omega), if_neg (show ¬(20 ≤ n) by omega), if_neg (show ¬(17 ≤ n) by omega), if_neg (show ¬(13 ≤ n) by omega), if_pos (show 7 ≤ n by omega)]
  by_cases h5 : n < 17
  · rw [if_neg h0, if_neg h1, if_neg h2, if_neg h3, if_neg h4, if_pos h5, if_neg (show ¬(27 ≤ n) by omega), if_neg (show ¬(23 ≤ n) by omega), if_neg (show ¬(20 ≤ n) by omega), if_neg (show ¬(17 ≤ n) by omega), if_pos (show 13 ≤ n by omega)]
  by_cases h6 : n < 20
  · rw [if_neg h0, if_neg h1, if_neg h2, if_neg h3, if_neg h4, if_neg h5, if_pos h6, if_neg (show ¬(27 ≤ n) by omega), if_neg (show ¬(23 ≤ n) by omega), if_neg (show ¬(20 ≤ n) by omega), if_pos (show 17 ≤ n by omega)]
  by_cases h7 : n < 23
  · rw [if_neg h0, if_neg h1, if_neg h2, if_neg h3, if_neg h4, if_neg h5, if_neg h6, if_pos h7, if_neg (show ¬(27 ≤ n) by omega), if_neg (show ¬(23 ≤ n) by omega), if_pos (show 20 ≤ n by omega)]
  by_cases h8 : n < 27
  · rw [if_neg h0, if_neg h1, if_neg h2, if_neg h3, if_neg h4, if_neg h5, if_neg h6, if_neg h7, if_pos h8, if_neg (show ¬(27 ≤ n) by omega), if_pos (show 23 ≤ n by omega)]
  rw [if_neg h0, if_neg h1, if_neg h2, if_neg h3, if_neg h4, if_neg h5, if_neg h6, if_neg h7, if_neg h8, if_pos (show n ≥ 27 by omega), if_pos (show 27 ≤ n by omega)]

theorem closed_issues_score_eq_table (n : ℤ) : closed_issues_score n = some (closedIssuesTable n) := by
  unfold closed_issues_score closedIssuesTable
  by_cases h0 : n = 0
  · rw [if_pos h0, if_neg (show ¬(167 ≤ n) by omega), if_neg (show ¬(133 ≤ n) by omega), if_neg (show ¬(100 ≤ n) by omega), if_neg (show ¬(50 ≤ n) by omega), if_neg (show ¬(33 ≤ n) by omega), if_neg (show ¬(17 ≤ n) by omega), if_neg (show ¬(7 ≤ n) by omega), if_neg (show ¬(n ≠ 0) by omega)]
  by_cases h1 : n < 7
  · rw [if_neg h0, if_pos h1, if_neg (show ¬(167 ≤ n) by omega), if_neg (show ¬(133 ≤ n) by omega), if_neg (show ¬(100 ≤ n) by omega), if_neg (show ¬(50 ≤ n) by omega), if_neg (show ¬(33 ≤ n) by omega), if_neg (show ¬(17 ≤ n) by omega), if_neg (show ¬(7 ≤ n) by omega), if_pos (show n ≠ 0 by omega)]
  by_cases h2 : n < 17
  · rw [if_neg h0, if_neg h1, if_pos h2, if_neg (show ¬(167 ≤ n) by omega), if_neg (show ¬(133 ≤ n) by omega), if_neg (show ¬(100 ≤ n) by omega), if_neg (show ¬(50 ≤ n) by omega), if_neg (show ¬(33 ≤ n) by omega), if_neg (show ¬(17 ≤ n) by omega), if_pos (show 7 ≤ n by omega)]
  by_cases h3 : n < 33
  · rw [if_neg h0, if_neg h1, if_neg h2, if_pos h3, if_neg (show ¬(167 ≤ n) by omega), if_neg (show ¬(133 ≤ n) by omega), if_neg (show ¬(100 ≤ n) by omega), if_neg (show ¬(50 ≤ n) by omega), if_neg (show ¬(33 ≤ n) by omega), if_pos (show 17 ≤ n by omega)]
  by_cases h4 : n < 50
  · rw [if_neg h0, if_neg h1, if_neg h2, if_neg h3, if_pos h4, if_neg (show ¬(167 ≤ n) by omega), if_neg (show ¬(133 ≤ n) by omega), if_neg (show ¬(100 ≤ n) by omega), if_neg (show ¬(50 ≤ n) by omega), if_pos (show 33 ≤ n by omega)]
  by_cases h5 : n < 100
  · rw [if_neg h0, if_neg h1, if_neg h2, if_neg h3, if_neg h4, if_pos h5, if_neg (show ¬(167 ≤ n) by omega), if_neg (show ¬(133 ≤ n) by omega), if_neg (show ¬(100 ≤ n) by omega), if_pos (show 50 ≤ n by omega)]
  by_cases h6 : n < 133
  · rw [if_neg h0, if_neg h1, if_neg h2, if_neg h3, if_neg h4, if_neg h5, if_pos h6, if_neg (show ¬(167 ≤ n) by omega), if_neg (show ¬(133 ≤ n) by omega), if_pos (show 100 ≤ n by omega)]
  by_cases h7 : n < 167
  · rw [if_neg h0, if_neg h1, if_neg h2, if_neg h3, if_neg h4, if_neg h5, if_neg h6, if_pos h7, if_neg (show ¬(167 ≤ n) by omega), if_pos (show 133 ≤ n by omega)]
  rw [if_neg h0, if_neg h1, if_neg h2, if_neg h3, if_neg h4, if_neg h5, if_neg h6, if_neg h7, if_pos (show n ≥ 167 by omega), if_pos (show 167 ≤ n by omega)]

theorem pythonMaxBy_foldl_mem {α κ : Type} [LinearOrder κ] (key : α → κ)
    (xs : List α) (b : α) :
    xs.foldl (fun b y => if key b < key y then y else b) b = b ∨
      xs.foldl (fun b y => if key b < key y then y else b) b ∈ xs := by
  induction xs generalizing b with
  | nil => exact Or.inl rfl
  | cons y ys ih =>
      rcases ih (if key b < key y then y else b) with h | h
      · rw [List.foldl_cons, h]
        by_cases hk : key b < key y
        · simp [hk]
        · simp [hk]
      · exact Or.inr (List.mem_cons_of_mem _ h)

theorem pythonMaxBy_foldl_le {α κ : Type} [LinearOrder κ] (key : α → κ)
    (xs : List α) (b : α) :
    key b ≤ key (xs.foldl (fun b y => if key b < key y then y else b) b) ∧
      ∀ x ∈ xs, key x ≤ key (xs.foldl (fun b y => if key b < key y then y else b) b) := by
  induction xs generalizing b with
  | nil => exact ⟨le_refl _, by simp⟩
  | cons y ys ih =>
      obtain ⟨h1, h2⟩ := ih (if key b < key y then y else b)
      constructor
      · refine le_trans ?_ h1
        by_cases hk : key b < key y
        · simp [hk]; exact le_of_lt hk
        · simp [hk]
      · intro x hx
        rcases List.mem_cons.mp hx with rfl | hx
        · refine le_trans ?_ h1
          by_cases hk : key b < key x
          · simp [hk]
          · simp [hk]; exact le_of_not_lt hk
        · exact h2 x hx

theorem pythonMinBy_foldl_mem {α κ : Type} [LinearOrder κ] (key : α → κ)
    (xs : List α) (b : α) :
    xs.foldl (fun b y => if key y < key b then y else b) b = b ∨
      xs.foldl (fun b y => if key y < key b then y else b) b ∈ xs := by
  induction xs generalizing b with
  | nil => exact Or.inl rfl
  | cons y ys ih =>
      rcases ih (if key y < key b then y else b) with h | h
      · rw [List.foldl_cons, h]
        by_cases hk : key y < key b
        · simp [hk]
        · simp [hk]
      · exact Or.inr (List.mem_cons_of_mem _ h)

theorem pythonMinBy_foldl_le {α κ : Type} [LinearOrder κ] (key : α → κ)
    (xs : List α) (b : α) :
    key (xs.foldl (fun b y => if key y < key b then y else b) b) ≤ key b ∧
      ∀ x ∈ xs, key (xs.foldl (fun b y => if key y < key b then y else b) b) ≤ key x := by
  induction xs generalizing b with
  | nil => exact ⟨le_refl _, by simp⟩
  | cons y ys ih =>
      obtain ⟨h1, h2⟩ := ih (if key y < key b then y else b)
      constructor
      · refine le_trans h1 ?_
        by_cases hk : key y < key b
        · simp [hk]; exact le_of_lt hk
        · simp [hk]
      · intro x hx
        rcases List.mem_cons.mp hx with rfl | hx
        · refine le_trans h1 ?_
          by_cases hk : key x < key b
          · simp [hk]
          · simp [hk]; exact le_of_not_lt hk
        · exact h2 x hx

/-- C1: the claim, read over the code's candidate set (`cooldown_until ≤ now`
AND `gql_reset_unix ≤ now`): highest known remaining among the candidates
(unknown = −1, first maximum on ties), round-robin among candidates when all
their budgets are unknown, soonest cooldown expiry when no candidate exists. -/
theorem pick_for_graphql_amended (p : TokenPool) (now : ℚ) :
    ((gqlCandidates p now ≠ [] ∧ ∃ t ∈ gqlCandidates p now, (p.states t).gql_remaining ≠ none) →
      ∃ tok, pick_for_graphql p now = some (tok, p) ∧ tok ∈ gqlCandidates p now ∧
        ∀ u ∈ gqlCandidates p now, gqlBudgetKey p u ≤ gqlBudgetKey p tok) ∧
    ((gqlCandidates p now ≠ [] ∧ ∀ t ∈ gqlCandidates p now, (p.states t).gql_remaining = none) →
      pick_for_graphql p now =
        ((gqlCandidates p now).get? (p.rrIndex % (gqlCandidates p now).length)).map
          (fun tok => (tok, { p with rrIndex := (p.rrIndex + 1) % p.tokens.length }))) ∧
    ((gqlCandidates p now = [] ∧ p.tokens ≠ []) →
      ∃ tok, pick_for_graphql p now = some (tok, p) ∧ tok ∈ p.tokens ∧
        ∀ u ∈ p.tokens, (p.states tok).cooldown_until ≤ (p.states u).cooldown_until) := by
  refine ⟨?_, ?_, ?_⟩
  · rintro ⟨hne, t, ht, hsome⟩
    have hne' : (gqlCandidates p now).isEmpty = false := by
      simpa [List.isEmpty_iff] using hne
    have hall : (gqlCandidates p now).all
        (fun t => ((p.states t).gql_remaining).isNone) = false := by
      rcases Bool.eq_false_or_eq_true ((gqlCandidates p now).all
          (fun t => ((p.states t).gql_remaining).isNone)) with h | h
      · exact absurd (Option.isNone_iff_eq_none.mp (List.all_eq_true.mp h t ht)) hsome
      · exact h
    obtain ⟨c, cs, hcands⟩ := List.exists_cons_of_ne_nil hne
    refine ⟨(cs.foldl (fun b y => if gqlBudgetKey p b < gqlBudgetKey p y then y else b) c), ?_, ?_, ?_⟩
    · unfold pick_for_graphql
      rw [if_neg (by simp [hne']), if_neg (by simp [hall])]
      rw [hcands]
      simp [pythonMaxBy]
    · rw [hcands]
      rcases pythonMaxBy_foldl_mem (gqlBudgetKey p) cs c with h | h
      · rw [h]; exact List.mem_cons_self c cs
      · exact List.mem_cons_of_mem c h
    · rw [hcands]
      intro u hu
      obtain ⟨h1, h2⟩ := pythonMaxBy_foldl_le (gqlBudgetKey p) cs c
      rcases List.mem_cons.mp hu with rfl | hu
      · exact h1
      · exact h2 u hu
  · rintro ⟨hne, hnone⟩
    have hne' : (gqlCandidates p now).isEmpty = false := by
      simpa [List.isEmpty_iff] using hne
    have hall : (gqlCandidates p now).all
        (fun t => ((p.states t).gql_remaining).isNone) = true :=
      List.all_eq_true.mpr fun t ht => Option.isNone_iff_eq_none.mpr (hnone t ht)
    unfold pick_for_graphql
    rw [if_neg (by simp [hne']), if_pos hall]
    cases h : (gqlCandidates p now).get? (p.rrIndex % (gqlCandidates p now).length) <;> simp [h]
  · rintro ⟨hemp, htok⟩
    have hne' : (gqlCandidates p now).isEmpty = true := by simp [hemp]
    obtain ⟨c, cs, hts⟩ := List.exists_cons_of_ne_nil htok
    refine ⟨(cs.foldl (fun b y =>
      if (p.states y).cooldown_until < (p.states b).cooldown_until then y else b) c), ?_, ?_, ?_⟩
    · unfold pick_for_graphql
      rw [if_pos hne']
      rw [hts]
      simp [pythonMinBy]
    · rw [hts]
      rcases pythonMinBy_foldl_mem (fun t => (p.states t).cooldown_until) cs c with h | h
      · rw [h]; exact List.mem_cons_self c cs
      · exact List.mem_cons_of_mem c h
    · rw [hts]
      intro u hu
      obtain ⟨h1, h2⟩ := pythonMinBy_foldl_le (fun t => (p.states t).cooldown_until) cs c
      rcases List.mem_cons.mp hu with rfl | hu
      · exact h1
      · exact h2 u hu

theorem collect_foldl_spec (outcome : String → Except String RepositoryInfo)
    (urls : List String) (acc : List RepositoryInfo × List String × RepositoryStore) :
    urls.foldl (collectStep outcome) acc =
      (acc.1 ++ successList outcome urls,
       acc.2.1 ++ errorList outcome urls,
       (successList outcome urls).foldl RepositoryStore.add acc.2.2) := by
  induction urls generalizing acc with
  | nil => simp [successList, errorList]
  | cons u us ih =>
      cases h : outcome u with
      | ok r =>
          simp only [List.foldl_cons, collectStep, h, ih, successList, errorList,
            List.filterMap_cons, Except.toOption]
          simp [successList, errorList]
      | error e =>
          simp only [List.foldl_cons, collectStep, h, ih, successList, errorList,
            List.filterMap_cons, Except.toOption]
          simp [successList, errorList]

theorem get_by_uuid_add (s : RepositoryStore) (r : RepositoryInfo) (k : String) :
    (s.add r).get_by_uuid k =
      if k = r.retrieval_uuid then some r else s.get_by_uuid k := by
  unfold RepositoryStore.add RepositoryStore.get_by_uuid
  exact dictGet_insert _ _ _ _

theorem get_by_uuid_addAll_of_not_mem (l : List RepositoryInfo) (s : RepositoryStore)
    (k : String) (h : k ∉ l.map RepositoryInfo.retrieval_uuid) :
    (l.foldl RepositoryStore.add s).get_by_uuid k = s.get_by_uuid k := by
  induction l generalizing s with
  | nil => rfl
  | cons r rs ih =>
      simp only [List.map_cons, List.mem_cons, not_or] at h
      rw [List.foldl_cons, ih _ h.2, get_by_uuid_add, if_neg h.1]

theorem get_by_uuid_addAll_mem (l : List RepositoryInfo) (s : RepositoryStore)
    (r : RepositoryInfo) (hr : r ∈ l)
    (hnd : (l.map RepositoryInfo.retrieval_uuid).Nodup) :
    (l.foldl RepositoryStore.add s).get_by_uuid r.retrieval_uuid = some r := by
  induction l generalizing s with
  | nil => cases hr
  | cons x xs ih =>
      simp only [List.map_cons, List.nodup_cons] at hnd
      rcases List.mem_cons.mp hr with rfl | hr'
      · rw [List.foldl_cons,
          get_by_uuid_addAll_of_not_mem xs (s.add r) r.retrieval_uuid hnd.1,
          get_by_uuid_add, if_pos rfl]
      · rw [List.foldl_cons]
        exact ih (s.add x) hr' hnd.2

/-- C2: every task is processed before the error decision; all-success
returns every result, any failure leaves every success in the store and
raises the single aggregate message (25-entry cap plus remainder count). -/
theorem collect_many_repos_failure_aggregation (outcome : String → Except String RepositoryInfo)
    (repo_urls : List String) :
    (errorList outcome (filter_repo_urls repo_urls) = [] →
      (collect_many_repos outcome repo_urls).1 =
        .ok (successList outcome (filter_repo_urls repo_urls))) ∧
    (errorList outcome (filter_repo_urls repo_urls) ≠ [] →
      (collect_many_repos outcome repo_urls).1 =
        .error (aggregate_error_message (errorList outcome (filter_repo_urls repo_urls)))) ∧
    (((successList outcome (filter_repo_urls repo_urls)).map
        RepositoryInfo.retrieval_uuid).Nodup →
      ∀ r ∈ successList outcome (filter_repo_urls repo_urls),
        (collect_many_repos outcome repo_urls).2.get_by_uuid r.retrieval_uuid = some r) := by
  have hfold := collect_foldl_spec outcome (filter_repo_urls repo_urls) ([], [], ⟨[], []⟩)
  refine ⟨?_, ?_, ?_⟩
  · intro h
    simp only [collect_many_repos]
    rw [hfold]
    simp [h]
  · intro h
    simp only [collect_many_repos]
    rw [hfold]
    simp only [List.nil_append]
    rw [if_neg (by simpa [List.isEmpty_iff] using h)]
  · intro hnd r hr
    simp only [collect_many_repos]
    rw [hfold]
    exact get_by_uuid_addAll_mem _ _ _ hr hnd

theorem collect_many_repos_failure_aggregation_witness :
    (collect_many_repos wOutcome ["a", "b", "c"]).1 =
        .error (aggregate_error_message (errorList wOutcome
          (filter_repo_urls ["a", "b", "c"]))) ∧
    (collect_many_repos wOutcome ["a", "b", "c"]).2.get_by_uuid "uuid-a" = some wRepoA :=
  ⟨(collect_many_repos_failure_aggregation wOutcome ["a", "b", "c"]).2.1 (by decide),
   (collect_many_repos_failure_aggregation wOutcome ["a", "b", "c"]).2.2 (by decide)
     wRepoA (by decide)⟩

theorem pick_for_graphql_claim_cex :
    (pick_for_graphql cexPool 50).map Prod.fst = some "b" ∧
    (cexPool.states "a").cooldown_until ≤ 50 ∧
    (cexPool.states "b").cooldown_until ≤ 50 ∧
    gqlBudgetKey cexPool "b" < gqlBudgetKey cexPool "a" := by
  decide

theorem pick_for_graphql_amended_witness :
    ∃ tok, pick_for_graphql cexPool 50 = some (tok, cexPool) ∧
      tok ∈ gqlCandidates cexPool 50 ∧
      ∀ u ∈ gqlCandidates cexPool 50, gqlBudgetKey cexPool u ≤ gqlBudgetKey cexPool tok :=
  (pick_for_graphql_amended cexPool 50).1 ⟨by decide, "b", by decide, by decide⟩

/-- C3: each of the six step functions returns exactly its §4.4 bucket-table
fraction on every input (in particular it never falls off the end of its
`if`/`elif` chain), and the named boundary pair behaves as stated. -/
theorem step_functions_match_tables :
    (∀ n : ℤ, stars_score n = some (starsTable n)) ∧
    (∀ n : ℤ, forks_score n = some (forksTable n)) ∧
    (∀ x : ℚ, maturity_score x = some (maturityTable x)) ∧
    (∀ x : ℚ, last_updated_score x = some (lastUpdatedTable x)) ∧
    (∀ n : ℤ, releases_score n = some (releasesTable n)) ∧
    (∀ n : ℤ, closed_issues_score n = some (closedIssuesTable n)) ∧
    stars_score 99 = some (9/10) ∧ stars_score 100 = some 1 :=
  ⟨stars_score_eq_table, forks_score_eq_table, maturity_score_eq_table,
   last_updated_score_eq_table, releases_score_eq_table, closed_issues_score_eq_table,
   rfl, rfl⟩

/-- C5: the tri-state classification, with Python's falsy test folded in:
`≥ 70` is `"True"`, `[40, 70)` is `"Undetermined"`, everything else
(including 0) is `"False"`; boundary inputs 39/40/69/70 behave as stated. -/
theorem is_score_passing_spec :
    (∀ n : ℤ, is_score_passing n =
      if 70 ≤ n then "True"
      else if 40 ≤ n ∧ n < 70 then "Undetermined"
      else "False") ∧
    is_score_passing 39 = "False" ∧
    is_score_passing 40 = "Undetermined" ∧
    is_score_passing 69 = "Undetermined" ∧
    is_score_passing 70 = "True" ∧
    is_score_passing 0 = "False" := by
  refine ⟨?_, rfl, rfl, rfl, rfl, rfl⟩
  intro n
  unfold is_score_passing
  split_ifs <;> first | rfl | omega

/-- C7: an unparseable or future date yields 0.0 elapsed years, and any
elapsed-years value `≤ 0.10` — including 0 and negatives — lands in the
`1.0` bucket of `last_updated_score`; hence such repositories receive the
full last-updated fraction. -/
theorem years_since_clamp_and_full_bucket :
    (∀ (parseIso : String → Option ℚ) (s : String) (now : ℚ),
      parseIso s = none → years_since_date_calculator parseIso s now = 0) ∧
    (∀ (parseIso : String → Option ℚ) (s : String) (now t : ℚ),
      parseIso s = some t → now < t → years_since_date_calculator parseIso s now = 0) ∧
    (∀ x : ℚ, x ≤ 1/10 → last_updated_score x = some 1) ∧
    (∀ (parseIso : String → Option ℚ) (s : String) (now : ℚ),
      (parseIso s = none ∨ ∃ t, parseIso s = some t ∧ now < t) →
      last_updated_score (years_since_date_calculator parseIso s now) = some 1) := by
  have h1 : ∀ (parseIso : String → Option ℚ) (s : String) (now : ℚ),
      parseIso s = none → years_since_date_calculator parseIso s now = 0 := by
    intro p s now h
    unfold years_since_date_calculator
    rw [h]
  have h2 : ∀ (parseIso : String → Option ℚ) (s : String) (now t : ℚ),
      parseIso s = some t → now < t → years_since_date_calculator parseIso s now = 0 := by
    intro p s now t h hlt
    unfold years_since_date_calculator
    rw [h]
    exact if_pos (by linarith)
  have h3 : ∀ x : ℚ, x ≤ 1/10 → last_updated_score x = some 1 := by
    intro x hx
    unfold last_updated_score
    rw [if_neg (show ¬(x ≥ 3) by intro hc; linarith),
      if_neg (show ¬(x > 1) by intro hc; linarith),
      if_neg (show ¬(x > 1/2) by intro hc; linarith),
      if_neg (show ¬(x > 1/4) by intro hc; linarith),
      if_neg (show ¬(x > 1/10) by intro hc; linarith),
      if_pos hx]
  refine ⟨h1, h2, h3, ?_⟩
  intro p s now h
  rcases h with h | ⟨t, h, hlt⟩
  · rw [h1 p s now h]
    exact h3 0 (by norm_num)
  · rw [h2 p s now t h hlt]
    exact h3 0 (by norm_num)

theorem years_since_clamp_and_full_bucket_witness :
    years_since_date_calculator (fun _ => none) "not-a-date" 0 = 0 ∧
    years_since_date_calculator (fun _ => some 5) "2999-01-01" 0 = 0 ∧
    last_updated_score 0 = some 1 ∧
    last_updated_score (years_since_date_calculator (fun _ => none) "not-a-date" 0) = some 1 :=
  ⟨years_since_clamp_and_full_bucket.1 (fun _ => none) "not-a-date" 0 rfl,
   years_since_clamp_and_full_bucket.2.1 (fun _ => some 5) "2999-01-01" 0 5 rfl (by norm_num),
   years_since_clamp_and_full_bucket.2.2.1 0 (by norm_num),
   years_since_clamp_and_full_bucket.2.2.2 (fun _ => none) "not-a-date" 0 (Or.inl rfl)⟩

/-- C4: in every computed `RepositoryScores` — both for the per-repository
computation and for every entry written back by the store-wide pass — the
stored `unclass_score` is the sum of the six stored sub-scores. -/
theorem repo_scores_unclass_is_sum (c : Constants) (trusted_orgs : List String)
    (parseIso : String → Option ℚ) (now : ℚ) :
    (∀ repo_data : RepositoryInfo,
      (calculate_repo_scores_one c trusted_orgs parseIso now repo_data).unclass_score =
        (calculate_repo_scores_one c trusted_orgs parseIso now repo_data).stars_score +
        (calculate_repo_scores_one c trusted_orgs parseIso now repo_data).forks_score +
        (calculate_repo_scores_one c trusted_orgs parseIso now repo_data).maturity_score +
        (calculate_repo_scores_one c trusted_orgs parseIso now repo_data).last_updated_score +
        (calculate_repo_scores_one c trusted_orgs parseIso now repo_data).prevalence_score +
        (calculate_repo_scores_one c trusted_orgs parseIso now repo_data).trusted_org_bonus) ∧
    (∀ store : RepositoryStore,
      ∀ r ∈ (calculate_repo_scores c trusted_orgs parseIso now store).get_all,
      ∀ rs, r.repo_scores = some rs →
        rs.unclass_score = rs.stars_score + rs.forks_score + rs.maturity_score +
          rs.last_updated_score + rs.prevalence_score + rs.trusted_org_bonus) := by
  constructor
  · intro repo_data
    rfl
  · intro store r hr rs hrs
    simp only [RepositoryStore.get_all, calculate_repo_scores, List.map_map,
      List.mem_map] at hr
    obtain ⟨p, hp, hre⟩ := hr
    have : rs = calculate_repo_scores_one c trusted_orgs parseIso now p.2 := by
      have := hre ▸ hrs
      simpa using this.symm
    subst this
    rfl

theorem repo_scores_unclass_is_sum_witness :
    (calculate_repo_scores_one demoConsts [] (fun _ => none) 0 wRepoA).unclass_score =
      (calculate_repo_scores_one demoConsts [] (fun _ => none) 0 wRepoA).stars_score +
      (calculate_repo_scores_one demoConsts [] (fun _ => none) 0 wRepoA).forks_score +
      (calculate_repo_scores_one demoConsts [] (fun _ => none) 0 wRepoA).maturity_score +
      (calculate_repo_scores_one demoConsts [] (fun _ => none) 0 wRepoA).last_updated_score +
      (calculate_repo_scores_one demoConsts [] (fun _ => none) 0 wRepoA).prevalence_score +
      (calculate_repo_scores_one demoConsts [] (fun _ => none) 0 wRepoA).trusted_org_bonus :=
  (repo_scores_unclass_is_sum demoConsts [] (fun _ => none) 0).2
    ⟨[("uuid-a", wRepoA)], []⟩
    { wRepoA with
      repo_scores := some (calculate_repo_scores_one demoConsts [] (fun _ => none) 0 wRepoA) }
    (List.mem_singleton.mpr rfl)
    (calculate_repo_scores_one demoConsts [] (fun _ => none) 0 wRepoA)
    rfl

/-- C8 (amended): at a fixed evaluation instant, with fixed weights and
trusted-organization list, the scoring computation is a pure function of the
metric-bearing `RepositoryInfo` fields alone — provenance, contributor and
prior-score fields cannot influence the result, so recomputation on an
unchanged snapshot is bit-identical. -/
theorem calculate_repo_scores_deterministic (c : Constants) (trusted_orgs : List String)
    (parseIso : String → Option ℚ) (now : ℚ) (r r' : RepositoryInfo)
    (hurl : r.repo_url = r'.repo_url) (hstars : r.stars = r'.stars)
    (hforks : r.forks = r'.forks) (hrel : r.releases_count = r'.releases_count)
    (htags : r.tags_count = r'.tags_count)
    (hci : r.closed_issues_count = r'.closed_issues_count)
    (hcr : r.created_at = r'.created_at) (hup : r.updated_at = r'.updated_at) :
    calculate_repo_scores_one c trusted_orgs parseIso now r =
      calculate_repo_scores_one c trusted_orgs parseIso now r' := by
  unfold calculate_repo_scores_one tags_or_releases_prevalence_calculator
  rw [hurl, hstars, hforks, hrel, htags, hci, hcr, hup]

theorem calculate_repo_scores_deterministic_witness :
    calculate_repo_scores_one demoConsts [] (fun _ => none) 0 wRepoA =
      calculate_repo_scores_one demoConsts [] (fun _ => none) 0
        { wRepoA with retrieval_uuid := "another-uuid", retrieved_at := "later" } :=
  calculate_repo_scores_deterministic demoConsts [] (fun _ => none) 0 wRepoA
    { wRepoA with retrieval_uuid := "another-uuid", retrieved_at := "later" }
    rfl rfl rfl rfl rfl rfl rfl rfl

theorem calculate_repo_scores_time_dependent_cex :
    (calculate_repo_scores_one c8Consts [] c8Parse 0 c8Repo).last_updated_score = 10 ∧
    (calculate_repo_scores_one c8Consts [] c8Parse 126227808 c8Repo).last_updated_score = 0 ∧
    calculate_repo_scores_one c8Consts [] c8Parse 0 c8Repo ≠
      calculate_repo_scores_one c8Consts [] c8Parse 126227808 c8Repo := by
  have hp : c8Parse "2020-01-01T00:00:00Z" = some 0 := rfl
  have hy1 : years_since_date_calculator c8Parse "2020-01-01T00:00:00Z" 0 = 0 := by
    unfold years_since_date_calculator
    rw [hp]
    norm_num
  have hy2 : years_since_date_calculator c8Parse "2020-01-01T00:00:00Z" 126227808 = 4 := by
    unfold years_since_date_calculator
    rw [hp]
    norm_num
  have hs1 : last_updated_score 0 = some 1 := by
    unfold last_updated_score
    norm_num
  have hs2 : last_updated_score 4 = some 0 := by
    unfold last_updated_score
    norm_num
  have hf1 : (calculate_repo_scores_one c8Consts [] c8Parse 0 c8Repo).last_updated_score
      = 10 := by
    unfold calculate_repo_scores_one
    simp only [c8Repo, c8Consts]
    rw [hy1, hs1]
    norm_num [pyRound]
  have hf2 : (calculate_repo_scores_one c8Consts [] c8Parse 126227808
      c8Repo).last_updated_score = 0 := by
    unfold calculate_repo_scores_one
    simp only [c8Repo, c8Consts]
    rw [hy2, hs2]
    norm_num [pyRound]
  refine ⟨hf1, hf2, ?_⟩
  intro heq
  have h10 := congrArg RepositoryScores.last_updated_score heq
  rw [hf1, hf2] at h10
  exact absurd h10 (by norm_num)

theorem addIdx1_get_some {s : ContributorStore} {c : ContributorInfo} {k : ℤ}
    {d : ContributorInfo} (h : dictGet (addIdx1 s c) k = some d) :
    dictGet s.by_id k = some d := by
  unfold addIdx1 at h
  rcases hE : dictGet s.by_login (_norm_login c.login) with _ | e
  · simp only [hE] at h; exact h
  · simp only [hE] at h
    by_cases heg : e.github_id ≠ c.github_id
    · rw [if_pos heg, dictGet_pop] at h
      by_cases hk : k = e.github_id
      · rw [if_pos hk] at h; cases h
      · rwa [if_neg hk] at h
    · rwa [if_neg heg] at h

theorem addIdx2_get_some {s : ContributorStore} {c : ContributorInfo} {k : String}
    {d : ContributorInfo} (h : dictGet (addIdx2 s c) k = some d) :
    dictGet s.by_login k = some d := by
  unfold addIdx2 at h
  rcases hE : dictGet (addIdx1 s c) c.github_id with _ | e2
  · simp only [hE] at h; exact h
  · simp only [hE] at h
    by_cases hel : _norm_login e2.login ≠ _norm_login c.login
    · rw [if_pos hel, dictGet_pop] at h
      by_cases hk : k = _norm_login e2.login
      · rw [if_pos hk] at h; cases h
      · rwa [if_neg hk] at h
    · rwa [if_neg hel] at h

theorem ContributorStore.addCore_consistent (s : ContributorStore) (c : ContributorInfo)
    (hs : s.Consistent) : (s.addCore c).Consistent := by
  obtain ⟨hA, hB⟩ := hs
  constructor
  · intro k d hd
    simp only [ContributorStore.addCore] at hd
    rw [dictGet_insert] at hd
    by_cases hk : k = _norm_login c.login
    · rw [if_pos hk] at hd
      injection hd with hd
      subst hd
      refine ⟨hk.symm, ?_⟩
      simp only [ContributorStore.addCore]
      rw [dictGet_insert, if_pos rfl]
    · rw [if_neg hk] at hd
      have hd0 : dictGet s.by_login k = some d := addIdx2_get_some hd
      obtain ⟨hnorm, hid⟩ := hA k d hd0
      refine ⟨hnorm, ?_⟩
      simp only [ContributorStore.addCore]
      rw [dictGet_insert]
      by_cases hg : d.github_id = c.github_id
      · exfalso
        rw [hg] at hid
        rcases hE : dictGet s.by_login (_norm_login c.login) with _ | e
        · have hI1 : addIdx1 s c = s.by_id := by unfold addIdx1; rw [hE]
          have hdg : dictGet (addIdx1 s c) c.github_id = some d := by rw [hI1]; exact hid
          have hL1 : addIdx2 s c = dictPop s.by_login (_norm_login d.login) := by
            unfold addIdx2
            rw [hdg]
            exact if_pos (by rw [hnorm]; exact hk)
          rw [hL1, dictGet_pop] at hd
          rw [hnorm, if_pos rfl] at hd
          cases hd
        · by_cases heg : e.github_id = c.github_id
          · obtain ⟨henorm, heid⟩ := hA _ e hE
            rw [heg, hid] at heid
            injection heid with heid
            rw [← heid] at henorm
            rw [hnorm] at henorm
            exact hk henorm
          · have hI1 : addIdx1 s c = dictPop s.by_id e.github_id := by
              unfold addIdx1; rw [hE]; exact if_pos heg
            have hdg : dictGet (addIdx1 s c) c.github_id = some d := by
              rw [hI1, dictGet_pop, if_neg (fun hcon => heg hcon.symm)]
              exact hid
            have hL1 : addIdx2 s c = dictPop s.by_login (_norm_login d.login) := by
              unfold addIdx2
              rw [hdg]
              exact if_pos (by rw [hnorm]; exact hk)
            rw [hL1, dictGet_pop] at hd
            rw [hnorm, if_pos rfl] at hd
            cases hd
      · rw [if_neg hg]
        rcases hE : dictGet s.by_login (_norm_login c.login) with _ | e
        · have hI1 : addIdx1 s c = s.by_id := by unfold addIdx1; rw [hE]
          rw [hI1]; exact hid
        · by_cases heg : e.github_id = c.github_id
          · have hI1 : addIdx1 s c = s.by_id := by
              unfold addIdx1
              rw [hE]
              exact if_neg (fun hcon => hcon heg)
            rw [hI1]; exact hid
          · have hI1 : addIdx1 s c = dictPop s.by_id e.github_id := by
              unfold addIdx1; rw [hE]; exact if_pos heg
            rw [hI1, dictGet_pop, if_neg ?hne]
            · exact hid
            case hne =>
              intro hcon
              obtain ⟨henorm, heid⟩ := hA _ e hE
              rw [← hcon, hid] at heid
              injection heid with heid
              rw [← heid] at henorm
              rw [hnorm] at henorm
              exact hk henorm
  · intro g' d hd
    simp only [ContributorStore.addCore] at hd
    rw [dictGet_insert] at hd
    by_cases hg : g' = c.github_id
    · rw [if_pos hg] at hd
      injection hd with hd
      subst hd
      refine ⟨hg.symm, ?_⟩
      simp only [ContributorStore.addCore]
      rw [dictGet_insert, if_pos rfl]
    · rw [if_neg hg] at hd
      have hd0 : dictGet s.by_id g' = some d := addIdx1_get_some hd
      obtain ⟨hgid, hlog⟩ := hB g' d hd0
      refine ⟨hgid, ?_⟩
      simp only [ContributorStore.addCore]
      rw [dictGet_insert]
      by_cases hl : _norm_login d.login = _norm_login c.login
      · exfalso
        rw [hl] at hlog
        have hI1 : addIdx1 s c = dictPop s.by_id d.github_id := by
          unfold addIdx1
          rw [hlog]
          exact if_pos (by rw [hgid]; exact hg)
        rw [hI1, dictGet_pop] at hd
        rw [hgid, if_pos rfl] at hd
        cases hd
      · rw [if_neg hl]
        rcases hE2 : dictGet (addIdx1 s c) c.github_id with _ | e2
        · have hL1 : addIdx2 s c = s.by_login := by unfold addIdx2; rw [hE2]
          rw [hL1]; exact hlog
        · by_cases hel : _norm_login e2.login = _norm_login c.login
          · have hL1 : addIdx2 s c = s.by_login := by
              unfold addIdx2
              rw [hE2]
              exact if_neg (fun hcon => hcon hel)
            rw [hL1]; exact hlog
          · have hL1 : addIdx2 s c = dictPop s.by_login (_norm_login e2.login) := by
              unfold addIdx2; rw [hE2]; exact if_pos hel
            rw [hL1, dictGet_pop, if_neg ?hne2]
            · exact hlog
            case hne2 =>
              intro hcon
              have he2 : dictGet s.by_id c.github_id = some e2 := addIdx1_get_some hE2
              obtain ⟨he2g, he2l⟩ := hB _ e2 he2
              rw [← hcon, hlog] at he2l
              injection he2l with he2l
              rw [← he2l] at he2g
              rw [hgid] at he2g
              exact hg he2g

theorem ContributorStore.addSeq_consistent_of (s : ContributorStore)
    (hs : s.Consistent) (cs : List ContributorInfo) :
    (s.addSeq cs).Consistent := by
  induction cs generalizing s with
  | nil => exact hs
  | cons c rest ih =>
      unfold ContributorStore.addSeq
      rw [List.foldl_cons]
      unfold ContributorStore.addSeq at ih
      by_cases hlog : c.login = ""
      · have : s.add c = .error "ContributorSummary.login must be non-empty" := by
          unfold ContributorStore.add
          rw [if_pos hlog]
        rw [this]
        exact ih s hs
      · have : s.add c = .ok (s.addCore c) := by
          unfold ContributorStore.add
          rw [if_neg hlog]
        rw [this]
        exact ih (s.addCore c) (s.addCore_consistent c hs)

/-- C9: every store reachable from empty by `add` calls keeps the two indices
mutually consistent; each successful `add` makes the added object the one
reachable under both of its identity keys; the concrete Bob/1-then-Bob/2 and
Ann/1-then-Cid/1 upsert scenarios behave as claimed. -/
theorem contributor_store_upsert_consistent :
    (∀ cs : List ContributorInfo, (ContributorStore.addSeq ⟨[], []⟩ cs).Consistent) ∧
    (∀ (s : ContributorStore) (c : ContributorInfo) (s' : ContributorStore),
      s.add c = .ok s' →
        dictGet s'.by_login (_norm_login c.login) = some c ∧
        dictGet s'.by_id c.github_id = some c) ∧
    ((ContributorStore.addSeq ⟨[], []⟩ [cBob1, cBob2]).get_by_githubid 2 = some cBob2 ∧
     (ContributorStore.addSeq ⟨[], []⟩ [cBob1, cBob2]).get_by_githubid 1 = none ∧
     (ContributorStore.addSeq ⟨[], []⟩ [cBob1, cBob2]).all = [cBob2]) ∧
    ((ContributorStore.addSeq ⟨[], []⟩ [cAnn, cCid]).get_by_login "Ann" = none ∧
     (ContributorStore.addSeq ⟨[], []⟩ [cAnn, cCid]).get_by_login "Cid" = some cCid ∧
     (ContributorStore.addSeq ⟨[], []⟩ [cAnn, cCid]).all = [cCid]) := by
  refine ⟨?_, ?_, by decide, by decide⟩
  · intro cs
    refine ContributorStore.addSeq_consistent_of _ ?_ cs
    constructor
    · intro k cc h; cases h
    · intro g cc h; cases h
  · intro s c s' h
    unfold ContributorStore.add at h
    by_cases hlog : c.login = ""
    · rw [if_pos hlog] at h; cases h
    · rw [if_neg hlog] at h
      injection h with h
      subst h
      simp only [ContributorStore.addCore]
      rw [dictGet_insert, if_pos rfl, dictGet_insert, if_pos rfl]
      exact ⟨rfl, rfl⟩

theorem contributor_store_upsert_consistent_witness :
    dictGet ((ContributorStore.mk [] []).addCore cBob1).by_login (_norm_login cBob1.login) =
        some cBob1 ∧
    dictGet ((ContributorStore.mk [] []).addCore cBob1).by_id cBob1.github_id = some cBob1 :=
  contributor_store_upsert_consistent.2.1 ⟨[], []⟩ cBob1
    ((ContributorStore.mk [] []).addCore cBob1) rfl

/-- C10: adding a contributor whose login is empty raises the `ValueError`
before any index is touched, so the store is unchanged. -/
theorem add_empty_login_raises :
    (∀ (s : ContributorStore) (c : ContributorInfo), c.login = "" →
      s.add c = .error "ContributorSummary.login must be non-empty") ∧
    (∀ (s : ContributorStore) (c : ContributorInfo), c.login = "" →
      s.addSeq [c] = s) := by
  have h1 : ∀ (s : ContributorStore) (c : ContributorInfo), c.login = "" →
      s.add c = .error "ContributorSummary.login must be non-empty" := by
    intro s c h
    unfold ContributorStore.add
    rw [if_pos h]
  refine ⟨h1, ?_⟩
  intro s c h
  unfold ContributorStore.addSeq
  rw [List.foldl_cons, h1 s c h]
  rfl

theorem add_empty_login_raises_witness :
    (ContributorStore.mk [("bob", cBob1)] [(1, cBob1)]).add cNoLogin =
        .error "ContributorSummary.login must be non-empty" ∧
    (ContributorStore.mk [("bob", cBob1)] [(1, cBob1)]).addSeq [cNoLogin] =
        ContributorStore.mk [("bob", cBob1)] [(1, cBob1)] :=
  ⟨add_empty_login_raises.1 ⟨[("bob", cBob1)], [(1, cBob1)]⟩ cNoLogin rfl,
   add_empty_login_raises.2 ⟨[("bob", cBob1)], [(1, cBob1)]⟩ cNoLogin rfl⟩


theorem strHasLead_iff (u p : List Char) :
    strHasLead u p = true ↔ ∃ r, u = p ++ r := by
  induction p generalizing u with
  | nil =>
      cases u <;> simp [strHasLead]
  | cons d ds ih =>
      cases u with
      | nil => simp [strHasLead]
      | cons c cs =>
          simp only [strHasLead, Bool.and_eq_true, decide_eq_true_eq, ih,
            List.cons_append, List.cons.injEq]
          constructor
          · rintro ⟨rfl, r, rfl⟩
            exact ⟨r, rfl, rfl⟩
          · rintro ⟨r, rfl, rfl⟩
            exact ⟨rfl, r, rfl⟩

theorem splitChars_ne_nil (sep : Char) (u : List Char) : splitChars sep u ≠ [] := by
  cases u with
  | nil => simp [splitChars]
  | cons c cs =>
      rcases h : splitChars sep cs with _ | ⟨h0, t⟩
      · simp [splitChars, h]
      · by_cases hc : c = sep <;> simp [splitChars, h, hc]

theorem splitChars_join (sep : Char) (u : List Char) :
    joinWithSep sep (splitChars sep u) = u ∧ ∀ p ∈ splitChars sep u, sep ∉ p := by
  induction u with
  | nil =>
      refine ⟨rfl, ?_⟩
      intro p hp
      simp only [splitChars, List.mem_singleton] at hp
      simp [hp]
  | cons c cs ih =>
      rcases h : splitChars sep cs with _ | ⟨h0, t⟩
      · exact absurd h (splitChars_ne_nil sep cs)
      · rw [h] at ih
        obtain ⟨ihj, ihm⟩ := ih
        by_cases hc : c = sep
        · simp only [splitChars, h, if_pos hc]
          constructor
          · show joinWithSep sep ([] :: h0 :: t) = c :: cs
            rw [joinWithSep, ihj, hc]
            rfl
          · intro p hp
            rcases List.mem_cons.mp hp with rfl | hp
            · simp
            · exact ihm p hp
        · simp only [splitChars, h, if_neg hc]
          constructor
          · show joinWithSep sep ((c :: h0) :: t) = c :: cs
            cases t with
            | nil =>
                have hh : h0 = cs := by simpa [joinWithSep] using ihj
                simp [joinWithSep, hh]
            | cons q t' =>
                rw [joinWithSep]
                rw [joinWithSep] at ihj
                simp [← ihj]
          · intro p hp
            rcases List.mem_cons.mp hp with rfl | hp
            · intro hmem
              rcases List.mem_cons.mp hmem with heq | hmem2
              · exact hc heq.symm
              · exact ihm h0 (List.mem_cons_self _ _) hmem2
            · exact ihm p (List.mem_cons_of_mem _ hp)

theorem splitChars_no_sep (sep : Char) (a : List Char) (h : sep ∉ a) :
    splitChars sep a = [a] := by
  induction a with
  | nil => rfl
  | cons c cs ih =>
      simp only [List.mem_cons, not_or] at h
      have hcs := ih h.2
      have hc : ¬ c = sep := fun hcon => h.1 hcon.symm
      simp [splitChars, hcs, hc]

theorem splitChars_append (sep : Char) (a b : List Char) (h : sep ∉ a) :
    splitChars sep (a ++ sep :: b) = a :: splitChars sep b := by
  induction a with
  | nil =>
      rcases hb : splitChars sep b with _ | ⟨h0, t⟩
      · exact absurd hb (splitChars_ne_nil sep b)
      · simp [splitChars, hb]
  | cons c cs ih =>
      simp only [List.mem_cons, not_or] at h
      have hcs := ih h.2
      have hc : ¬ c = sep := fun hcon => h.1 hcon.symm
      simp [splitChars, hcs, hc]

theorem restAfterHost_some_iff (u r : List Char) :
    restAfterHost u = some r ↔
      ∃ s : List Char,
        (s.map Char.toLower = "https://github.com/".data ∨
         s.map Char.toLower = "http://github.com/".data) ∧ u = s ++ r := by
  constructor
  · intro h
    unfold restAfterHost at h
    by_cases h19 : (u.take 19).map Char.toLower = "https://github.com/".data
    · rw [if_pos h19] at h
      injection h with h
      exact ⟨u.take 19, Or.inl h19, by rw [← h]; exact (List.take_append_drop 19 u).symm⟩
    · rw [if_neg h19] at h
      by_cases h18 : (u.take 18).map Char.toLower = "http://github.com/".data
      · rw [if_pos h18] at h
        injection h with h
        exact ⟨u.take 18, Or.inr h18, by rw [← h]; exact (List.take_append_drop 18 u).symm⟩
      · rw [if_neg h18] at h
        cases h
  · rintro ⟨s, hs | hs, rfl⟩
    · have hlen : s.length = 19 := by
        have hl := congrArg List.length hs
        rw [List.length_map] at hl
        exact hl.trans (by decide)
      unfold restAfterHost
      rw [List.take_left' hlen, if_pos hs, List.drop_left' hlen]
    · have hlen : s.length = 18 := by
        have hl := congrArg List.length hs
        rw [List.length_map] at hl
        exact hl.trans (by decide)
      have hneg : ¬ ((s ++ r).take 19).map Char.toLower = "https://github.com/".data := by
        intro hcon
        have h1 := congrArg (List.take 18) hcon
        rw [← List.map_take, List.take_take] at h1
        norm_num at h1
        rw [List.take_left' (by rw [List.length_map]; exact hlen), hs] at h1
        exact absurd h1 (by decide)
      unfold restAfterHost
      rw [if_neg hneg, List.take_left' hlen, if_pos hs, List.drop_left' hlen]

theorem restAfterHost_httpUpgrade (u : List Char) :
    restAfterHost (httpUpgrade u) = restAfterHost u := by
  by_cases hp : (u.take 18).map Char.toLower = "http://github.com/".data
  · unfold httpUpgrade
    rw [if_pos hp]
    have hL : ("https://github.com/".data).length = 19 := by decide
    have e1 : restAfterHost ("https://github.com/".data ++ u.drop 18) = some (u.drop 18) := by
      unfold restAfterHost
      rw [List.take_left' hL, if_pos (by decide), List.drop_left' hL]
    rw [e1]
    have hneg : ¬ (u.take 19).map Char.toLower = "https://github.com/".data := by
      intro hcon
      have h1 := congrArg (List.take 18) hcon
      rw [← List.map_take, List.take_take] at h1
      norm_num at h1
      rw [← List.map_take, hp] at h1
      exact absurd h1 (by decide)
    unfold restAfterHost
    rw [if_neg hneg, if_pos hp]
  · unfold httpUpgrade
    rw [if_neg hp]

theorem httpsMatch_httpUpgrade (u : List Char) :
    httpsMatch (httpUpgrade u) = httpsMatch u := by
  unfold httpsMatch
  rw [restAfterHost_httpUpgrade]

theorem sshMatch_some_of (u : List Char) (p : String × String)
    (h : sshMatch u = some p) : SshShape u := by
  unfold sshMatch at h
  by_cases hl : strHasLead u "git@github.com:".data
  · rw [if_pos hl] at h
    obtain ⟨rest0, hu⟩ := (strHasLead_iff u _).mp hl
    have hdrop : u.drop 15 = rest0 := by
      rw [hu]
      exact List.drop_left' (by decide)
    rcases hsp : splitChars '/' (u.drop 15) with _ | ⟨a, t1⟩
    · exact absurd hsp (splitChars_ne_nil _ _)
    rcases t1 with _ | ⟨b, t2⟩
    · simp [hsp] at h
    rcases t2 with _ | ⟨c, t3⟩
    · simp only [hsp] at h
      by_cases hg : a ≠ [] ∧ b ≠ []
      · obtain ⟨hj, hm⟩ := splitChars_join '/' (u.drop 15)
        rw [hsp] at hj hm
        refine ⟨a, b, hg.1, hg.2, hm a (by simp), hm b (by simp), ?_⟩
        have hrest : rest0 = a ++ '/' :: b := by
          rw [← hdrop, ← hj]
          simp [joinWithSep]
        rw [hu, hrest]
        simp [List.append_assoc]
      · rw [if_neg hg] at h
        cases h
    · simp [hsp] at h
  · rw [if_neg hl] at h
    cases h

theorem sshMatch_of_shape (u : List Char) (h : SshShape u) :
    ∃ p, sshMatch u = some p := by
  obtain ⟨a, b, ha, hb, hna, hnb, hu⟩ := h
  have hu' : u = "git@github.com:".data ++ (a ++ '/' :: b) := by
    rw [hu]; simp [List.append_assoc]
  have hl : strHasLead u "git@github.com:".data = true :=
    (strHasLead_iff u _).mpr ⟨a ++ '/' :: b, hu'⟩
  have hdrop : u.drop 15 = a ++ '/' :: b := by
    rw [hu']
    exact List.drop_left' (by decide)
  unfold sshMatch
  rw [if_pos hl, hdrop, splitChars_append '/' a b hna, splitChars_no_sep '/' b hnb]
  simp only [if_pos (And.intro ha hb)]
  exact ⟨_, rfl⟩

theorem httpsMatch_some_of (u : List Char) (p : String × String)
    (h : httpsMatch u = some p) : HttpShape u := by
  unfold httpsMatch at h
  rcases hr : restAfterHost u with _ | rest
  · simp [hr] at h
  · simp only [hr] at h
    obtain ⟨s, hsOr, hu⟩ := (restAfterHost_some_iff u rest).mp hr
    rcases hsp : splitChars '/' rest with _ | ⟨a, t1⟩
    · exact absurd hsp (splitChars_ne_nil _ _)
    rcases t1 with _ | ⟨b, t2⟩
    · simp [hsp] at h
    rcases t2 with _ | ⟨c, t3⟩
    · simp only [hsp] at h
      by_cases hg : a ≠ [] ∧ b ≠ []
      · obtain ⟨hj, hm⟩ := splitChars_join '/' rest
        rw [hsp] at hj hm
        refine ⟨s, a, b, [], hsOr, hg.1, hg.2, hm a (by simp), hm b (by simp),
          Or.inl rfl, ?_⟩
        rw [hu, ← hj]
        simp [joinWithSep, List.append_assoc]
      · rw [if_neg hg] at h
        cases h
    rcases t3 with _ | ⟨d, t4⟩
    · rcases c with _ | ⟨c0, ct⟩
      · simp only [hsp] at h
        by_cases hg : a ≠ [] ∧ b ≠ []
        · obtain ⟨hj, hm⟩ := splitChars_join '/' rest
          rw [hsp] at hj hm
          refine ⟨s, a, b, ['/'], hsOr, hg.1, hg.2, hm a (by simp), hm b (by simp),
            Or.inr rfl, ?_⟩
          rw [hu, ← hj]
          simp [joinWithSep, List.append_assoc]
        · rw [if_neg hg] at h
          cases h
      · simp [hsp] at h
    · simp [hsp] at h

theorem httpsMatch_of_shape (u : List Char) (h : HttpShape u) :
    ∃ p, httpsMatch u = some p := by
  obtain ⟨s, a, b, trail, hsOr, ha, hb, hna, hnb, htr, hu⟩ := h
  have hrest : restAfterHost u = some (a ++ '/' :: (b ++ trail)) := by
    refine (restAfterHost_some_iff u _).mpr ⟨s, hsOr, ?_⟩
    rw [hu]
    simp [List.append_assoc]
  unfold httpsMatch
  rw [hrest]
  rcases htr with rfl | rfl
  · have hsp : splitChars '/' (a ++ '/' :: (b ++ [])) = [a, b] := by
      rw [List.append_nil, splitChars_append '/' a b hna, splitChars_no_sep '/' b hnb]
    simp only [hsp, if_pos (And.intro ha hb)]
    exact ⟨_, rfl⟩
  · have hsp : splitChars '/' (a ++ '/' :: (b ++ ['/'])) = [a, b, []] := by
      rw [splitChars_append '/' a (b ++ ['/']) hna,
        show b ++ ['/'] = b ++ '/' :: [] from rfl,
        splitChars_append '/' b [] hnb]
      rfl
    simp only [hsp, if_pos (And.intro ha hb)]
    exact ⟨_, rfl⟩

theorem RecognizedGithubUrl_head (url : String) (h : RecognizedGithubUrl url) :
    (pyStrip url).data.take 15 = "git@github.com:".data ∨
    ((pyStrip url).data.take 19).map Char.toLower = "https://github.com/".data ∨
    ((pyStrip url).data.take 18).map Char.toLower = "http://github.com/".data := by
  rcases h with ⟨a, b, _, _, _, _, hu⟩ | ⟨s, a, b, t, hsOr, _, _, _, _, _, hu⟩
  · left
    rw [show (pyStrip url).data = "git@github.com:".data ++ (a ++ '/' :: b) from by
      rw [hu]; simp [List.append_assoc]]
    exact List.take_left' (by decide)
  · have hu' : (pyStrip url).data = s ++ (a ++ '/' :: (b ++ t)) := by
      rw [hu]; simp [List.append_assoc]
    rcases hsOr with hs | hs
    · right; left
      have hlen : s.length = 19 := by
        have hl := congrArg List.length hs
        rw [List.length_map] at hl
        exact hl.trans (by decide)
      rw [hu', List.take_left' hlen, hs]
    · right; right
      have hlen : s.length = 18 := by
        have hl := congrArg List.length hs
        rw [List.length_map] at hl
        exact hl.trans (by decide)
      rw [hu', List.take_left' hlen, hs]

/-- C6 (amended): the four standard URL shapes normalize to the canonical
`https://github.com/Org/Repo` with owner `Org` and name `Repo`; the accepted
inputs are exactly those whose whitespace-stripped form is
`git@github.com:owner/repo[.git]` (case-sensitive) or, case-insensitively in
scheme and host, `http(s)://github.com/owner/repo[.git][/]` with non-empty
slash-free owner and repo; every input outside that language raises the
parse error naming the offending URL. -/
theorem parse_github_repo_url_corrected :
    (parse_github_repo_url "https://github.com/Org/Repo" =
      .ok ("https://github.com/Org/Repo", "Org", "Repo") ∧
    parse_github_repo_url "https://github.com/Org/Repo.git" =
      .ok ("https://github.com/Org/Repo", "Org", "Repo") ∧
    parse_github_repo_url "http://github.com/Org/Repo" =
      .ok ("https://github.com/Org/Repo", "Org", "Repo") ∧
    parse_github_repo_url "git@github.com:Org/Repo.git" =
      .ok ("https://github.com/Org/Repo", "Org", "Repo")) ∧
    (∀ url : String, RecognizedGithubUrl url →
      ∃ v, parse_github_repo_url url = .ok v) ∧
    (∀ url : String, ¬ RecognizedGithubUrl url →
      parse_github_repo_url url = .error ("Not a recognized GitHub repo URL: " ++ url)) := by
  refine ⟨⟨rfl, rfl, rfl, rfl⟩, ?_, ?_⟩
  · intro url h
    rcases hs : sshMatch (pyStrip url).data with _ | ⟨owner, repo⟩
    · rcases h with hssh | hhttp
      · obtain ⟨p, hp⟩ := sshMatch_of_shape _ hssh
        rw [hs] at hp
        cases hp
      · obtain ⟨⟨owner, repo⟩, hp⟩ := httpsMatch_of_shape _ hhttp
        have hp' : httpsMatch (httpUpgrade (pyStrip url).data) = some (owner, repo) :=
          (httpsMatch_httpUpgrade _).trans hp
        have heq : parse_github_repo_url url =
            .ok ("https://github.com/" ++ owner ++ "/" ++ repo, owner, repo) := by
          simp only [parse_github_repo_url, hs, hp']
        exact ⟨_, heq⟩
    · have heq : parse_github_repo_url url =
          .ok ("https://github.com/" ++ owner ++ "/" ++ repo, owner, repo) := by
        simp only [parse_github_repo_url, hs]
      exact ⟨_, heq⟩
  · intro url h
    rcases hs : sshMatch (pyStrip url).data with _ | ⟨owner, repo⟩
    · rcases hh : httpsMatch (httpUpgrade (pyStrip url).data) with _ | ⟨owner, repo⟩
      · simp only [parse_github_repo_url, hs, hh]
      · exact absurd (Or.inr (httpsMatch_some_of _ _ ((httpsMatch_httpUpgrade _).symm.trans hh))) h
    · exact absurd (Or.inl (sshMatch_some_of _ _ hs)) h

/-- C6 counterexample: three inputs matching none of the claim's four forms
— SSH without `.git`, a trailing slash, an upper-case scheme and host — that
`parse_github_repo_url` nevertheless accepts instead of raising. -/
theorem parse_github_repo_url_claim_cex :
    parse_github_repo_url "git@github.com:Org/Repo" =
      .ok ("https://github.com/Org/Repo", "Org", "Repo") ∧
    parse_github_repo_url "https://github.com/Org/Repo/" =
      .ok ("https://github.com/Org/Repo", "Org", "Repo") ∧
    parse_github_repo_url "HTTPS://GITHUB.COM/Org/Repo" =
      .ok ("https://github.com/Org/Repo", "Org", "Repo") :=
  ⟨rfl, rfl, rfl⟩

theorem parse_github_repo_url_corrected_witness :
    (∃ v, parse_github_repo_url "https://github.com/Org/Repo" = .ok v) ∧
    parse_github_repo_url "nonsense" =
      .error ("Not a recognized GitHub repo URL: " ++ "nonsense") :=
  ⟨parse_github_repo_url_corrected.2.1 "https://github.com/Org/Repo"
    (Or.inr ⟨"https://github.com/".data, ['O', 'r', 'g'], ['R', 'e', 'p', 'o'], [],
      Or.inl (by decide), by decide, by decide, by decide, by decide, Or.inl rfl,
      by decide⟩),
   parse_github_repo_url_corrected.2.2 "nonsense"
    (fun h => absurd (RecognizedGithubUrl_head "nonsense" h) (by decide))⟩
